import Mathlib

/-!
# PT100 / MAX31865 driver: conversion engine and register interpreter

Shallow embedding of `Source/Max31865.c`, `Source/Max31865.h`, `Source/spi.c`
and `Source/main.c`.  C integers are modelled as `Int` together with the type
that holds each result; every arithmetic result, narrowing cast and division
of the source is one step of the embedding, so that a run can be read either
with two-complement wrap-around or with strict C rules (signed overflow and
division by zero are faults).
-/

namespace PT100

/-! ## Integer model -/

/-- Faults that a run of the C code can meet. -/
inductive Fault where
  | divZero
  | overflow
  | narrow
  deriving DecidableEq, Repr

/-- How a result that does not fit its type is treated: `wraps` reduces it
modulo 2^w (what the RV32 hardware and libgcc do), `strict` reports a fault
(signed overflow is undefined in C, a value-changing narrowing cast is
implementation-defined). -/
inductive IntSem where
  | wraps
  | strict
  deriving DecidableEq, Repr

/-- Signed C integer types used by the driver. -/
inductive CInt where
  | i16
  | i32
  | i64
  deriving DecidableEq, Repr

/-- Half of the number of values of a signed type: 2^(w-1). -/
def CInt.half : CInt → Int
  | .i16 => 32768
  | .i32 => 2147483648
  | .i64 => 9223372036854775808

/-- The value is representable in the signed type. -/
def CInt.fits (ty : CInt) (x : Int) : Prop := -ty.half ≤ x ∧ x < ty.half

instance (ty : CInt) (x : Int) : Decidable (ty.fits x) := by
  unfold CInt.fits; exact inferInstance

/-- Reduction modulo 2^w (two-complement) of a value into the signed type. -/
def CInt.wrap (ty : CInt) (x : Int) : Int := (x + ty.half) % (2 * ty.half) - ty.half

instance instDecidableEqExcept {ε α : Type} [DecidableEq ε] [DecidableEq α] :
    DecidableEq (Except ε α) := fun a b =>
  match a, b with
  | .ok x, .ok y =>
      if h : x = y then isTrue (by rw [h]) else isFalse (fun e => h (Except.ok.inj e))
  | .error x, .error y =>
      if h : x = y then isTrue (by rw [h]) else isFalse (fun e => h (Except.error.inj e))
  | .ok _, .error _ => isFalse (fun e => Except.noConfusion e)
  | .error _, .ok _ => isFalse (fun e => Except.noConfusion e)

/-- Result of a signed `+`, `-` or `*` whose mathematical value is `x`, held in `ty`. -/
def arith (sem : IntSem) (ty : CInt) (x : Int) : Except Fault Int :=
  match sem with
  | .wraps => .ok (ty.wrap x)
  | .strict => if ty.fits x then .ok x else .error .overflow

/-- Conversion of the value `x` to the signed type `ty` (a C cast or an assignment). -/
def cast (sem : IntSem) (ty : CInt) (x : Int) : Except Fault Int :=
  match sem with
  | .wraps => .ok (ty.wrap x)
  | .strict => if ty.fits x then .ok x else .error .narrow

/-- C division `a / b` in type `ty`: truncation toward zero, a zero divisor is a fault. -/
def cdiv (sem : IntSem) (ty : CInt) (a b : Int) : Except Fault Int :=
  if b = 0 then .error .divZero else arith sem ty (Int.tdiv a b)

/-! ## Constants of `Max31865.h` -/

abbrev MAX31865_R_REF : Int := 426
abbrev MAX31865_ADC_MAX : Int := 32768
abbrev MAX31865_A : Int := 39083
abbrev MAX31865_B : Int := -57750
abbrev MAX31865_C : Int := -41830
abbrev R0_X100 : Int := 10000
abbrev A_S : Int := 3908300
abbrev B_S : Int := -577

/-! ## Global variables of `Max31865.c` -/

/-- The global measurement variables. -/
structure Globals where
  Max31865_resistance_raw : Nat
  Max31865_resistance_x100 : Int
  Max31865_temperature_x10 : Int
  Max31865_reg1 : Nat
  Max31865_reg2 : Nat
  deriving DecidableEq, Repr

/-! ## Temperature conversion engine (`Max31865_ConvertToTemperature`) -/

/-- Scaling of the raw ADC code to resistance times 100 (lines 52-53):
`((int32_t)raw * MAX31865_R_REF * 100L) / MAX31865_ADC_MAX`, all in 32 bits. -/
def scaleRaw (sem : IntSem) (raw : Nat) : Except Fault Int := do
  let r ← cast sem .i32 (raw : Int)
  let p ← arith sem .i32 (r * MAX31865_R_REF)
  let q ← arith sem .i32 (p * 100)
  cdiv sem .i32 q MAX31865_ADC_MAX

/-- The branch test of line 59: `Max31865_resistance_x100 >= 10000L`. -/
def usesPositiveBranch (R : Int) : Bool := decide (R ≥ 10000)

/-- The two clamps of lines 68-69 and 91-92. -/
def clampPos (t : Int) : Int :=
  let t := if t < 0 then 0 else t
  if t > 8500 then 8500 else t

/-- Linear initial estimate of the positive branch (lines 64-65). -/
def posInitial (sem : IntSem) (R : Int) : Except Fault Int := do
  let d ← arith sem .i64 (R - R0_X100)
  let m ← arith sem .i64 (d * 10)
  let n ← arith sem .i64 (m * 1000000000)
  let q ← cdiv sem .i64 n (R0_X100 * A_S)
  cast sem .i32 q

/-- The quadratic `Rcalc` of the positive branch at estimate `t` (lines 74-78). -/
def posRcalc (sem : IntSem) (t : Int) : Except Fault Int := do
  let a ← arith sem .i64 (R0_X100 * A_S * t)
  let termA ← cdiv sem .i64 a (10 * 1000000000)
  let tt ← arith sem .i64 (t * t)
  let b ← arith sem .i64 (R0_X100 * B_S * tt)
  let termB ← cdiv sem .i64 b (100 * 1000000000)
  let s ← arith sem .i64 (R0_X100 + termA)
  arith sem .i64 (s + termB)

/-- The derivative `dRdt` of the positive branch at estimate `t` (lines 82-84). -/
def posDRdt (sem : IntSem) (t : Int) : Except Fault Int := do
  let c ← cdiv sem .i64 (R0_X100 * A_S) (10 * 1000000000)
  let p ← arith sem .i64 (R0_X100 * 2 * B_S * t)
  let q ← cdiv sem .i64 p (100 * 1000000000)
  arith sem .i64 (c + q)

/-- The Newton loop of the positive branch (lines 72-93); the first argument
counts the iterations still to run, a zero derivative leaves the loop. -/
def posLoop (sem : IntSem) (R : Int) : Nat → Int → Except Fault Int
  | 0, t => pure t
  | n + 1, t => do
    let Rcalc ← posRcalc sem t
    let f ← arith sem .i64 (Rcalc - R)
    let dRdt ← posDRdt sem t
    if dRdt = 0 then pure t
    else do
      let q ← cdiv sem .i64 f dRdt
      let q32 ← cast sem .i32 q
      let t1 ← arith sem .i32 (t - q32)
      posLoop sem R n (clampPos t1)

/-- Positive branch (lines 61-93): the 32-bit estimate `t` it leaves. -/
def posBranch (sem : IntSem) (R : Int) : Except Fault Int := do
  let t ← posInitial sem R
  posLoop sem R 4 (clampPos t)

/-- Linear initial estimate of the negative branch (lines 103-104), in 32 bits. -/
def negInitial (sem : IntSem) (R : Int) : Except Fault Int := do
  let delta ← arith sem .i32 (R - 10000)
  let p ← arith sem .i32 (delta * 10000)
  cdiv sem .i32 p MAX31865_A

/-- The value `t2` of line 109. -/
def negT2 (sem : IntSem) (t : Int) : Except Fault Int := do
  let s ← arith sem .i64 (t * t)
  cdiv sem .i64 s 10

/-- The value `t3` of line 110. -/
def negT3 (sem : IntSem) (t t2 : Int) : Except Fault Int := do
  let s ← arith sem .i64 (t2 * t)
  cdiv sem .i64 s 10

/-- The cubic `r_calc` of the negative branch at estimate `t` (lines 108-121). -/
def negRcalc (sem : IntSem) (t : Int) : Except Fault Int := do
  let t2 ← negT2 sem t
  let t3 ← negT3 sem t t2
  let term_const : Int := 10000000000
  let at0 ← arith sem .i64 (MAX31865_A * t)
  let term_at ← arith sem .i64 (at0 * 100)
  let bt ← arith sem .i64 (MAX31865_B * t2)
  let term_bt2 ← cdiv sem .i64 bt 10
  let t_minus_100 ← arith sem .i64 (t - 1000)
  let c1 ← arith sem .i64 (MAX31865_C * t_minus_100)
  let c2 ← arith sem .i64 (c1 * t3)
  let term_c ← cdiv sem .i64 c2 100000000
  let s1 ← arith sem .i64 (term_const + term_at)
  let s2 ← arith sem .i64 (s1 + term_bt2)
  let s3 ← arith sem .i64 (s2 + term_c)
  let s4 ← arith sem .i64 (100 * s3)
  cdiv sem .i64 s4 1000000000

/-- The derivative `fp` of the negative branch at estimate `t` (lines 126-132);
`t2` and `t3` are the values of lines 109-110, evaluated again here. -/
def negFp (sem : IntSem) (t : Int) : Except Fault Int := do
  let t2 ← negT2 sem t
  let t3 ← negT3 sem t t2
  let fp_a : Int := MAX31865_A * 100
  let b ← arith sem .i64 (2 * MAX31865_B * t)
  let fp_bt ← cdiv sem .i64 b 10
  let x ← arith sem .i64 (4 * t3)
  let y ← arith sem .i64 (3000 * t2)
  let fp_c_bracket ← arith sem .i64 (x - y)
  let c ← arith sem .i64 (MAX31865_C * fp_c_bracket)
  let fp_c ← cdiv sem .i64 c 100000000
  let s1 ← arith sem .i64 (fp_a + fp_bt)
  let s2 ← arith sem .i64 (s1 + fp_c)
  let s3 ← arith sem .i64 (100 * s2)
  cdiv sem .i64 s3 1000000000

/-- One iteration of the negative-branch loop body (lines 108-137). -/
def negStep (sem : IntSem) (R t : Int) : Except Fault Int := do
  let r_calc ← negRcalc sem t
  let f ← arith sem .i64 (r_calc - R)
  let fp ← negFp sem t
  if fp ≠ 0 then do
    let n ← arith sem .i64 (f * 10)
    let q ← cdiv sem .i64 n fp
    let q32 ← cast sem .i32 q
    arith sem .i32 (t - q32)
  else pure t

/-- The loop of the negative branch (line 106); the first argument counts the
iterations still to run. -/
def negLoop (sem : IntSem) (R : Int) : Nat → Int → Except Fault Int
  | 0, t => pure t
  | n + 1, t => do
    let t1 ← negStep sem R t
    negLoop sem R n t1

/-- Negative branch (lines 103-138): the 32-bit estimate `t` it leaves. -/
def negBranch (sem : IntSem) (R : Int) : Except Fault Int := do
  let t ← negInitial sem R
  negLoop sem R 3 t

/-- The final clamp of lines 144-145. -/
def clampFinal (T : Int) : Int :=
  let T := if T < -2000 then -2000 else T
  if T > 8500 then 8500 else T

/-- The selected branch: the 32-bit estimate `t` before the cast to `int16_t`. -/
def branchEstimate (sem : IntSem) (R : Int) : Except Fault Int :=
  if usesPositiveBranch R then posBranch sem R else negBranch sem R

/-- The conversion engine from line 59 on: from `Max31865_resistance_x100` to
`Max31865_temperature_x10` (branch, cast to `int16_t` of lines 95 and 140,
final clamp). -/
def convertScaled (sem : IntSem) (R : Int) : Except Fault Int := do
  let t ← branchEstimate sem R
  let T ← cast sem .i16 t
  pure (clampFinal T)

/-- `Max31865_ConvertToTemperature` (lines 49-146) on the global variables. -/
def Max31865_ConvertToTemperature (sem : IntSem) (g : Globals) : Except Fault Globals := do
  let R ← scaleRaw sem g.Max31865_resistance_raw
  let T ← convertScaled sem R
  pure { g with Max31865_resistance_x100 := R, Max31865_temperature_x10 := T }

/-! ## SPI side (`spi.c`) and register interpreter (`Max31865_ReadRegister`) -/

/-- What the device sees on its pins, in order. -/
inductive BusEvent where
  | csLow
  | csHigh
  | byte (b : Nat)
  | delayMs (n : Nat)
  deriving DecidableEq, Repr

/-- What the SPI peripheral does during one call of `SPI_TransferByte`: for
how many polls the TXE flag still reads RESET, for how many polls the RXNE
flag still reads RESET once the byte is out, and the content of the data
register that is read then. -/
structure HwTransfer where
  txBusy : Nat
  rxBusy : Nat
  data : Nat
  deriving DecidableEq, Repr

/-- The SPI bus: the events on the pins so far (oldest first) and the
behaviour of the peripheral during the coming calls of `SPI_TransferByte`,
one entry per call.  An exhausted list stands for a peripheral whose TXE flag
never rises. -/
structure Bus where
  log : List BusEvent
  hw : List HwTransfer
  deriving DecidableEq, Repr

/-- `GPIO_ResetBits(GPIOC, GPIO_Pin_4)`: chip select low. -/
def GPIO_ResetBits (b : Bus) : Bus := { b with log := b.log ++ [.csLow] }

/-- `GPIO_SetBits(GPIOC, GPIO_Pin_4)`: chip select high. -/
def GPIO_SetBits (b : Bus) : Bus := { b with log := b.log ++ [.csHigh] }

/-- The wait loops of spi.c lines 88-92 and 100-104: the flag reads RESET for
the next `busy` polls, `retry` is the counter; the result is `false` when
`++retry > 200` ends the wait and `true` when the flag is seen set. -/
def pollFlag : Nat → Nat → Bool
  | 0, _ => true
  | busy + 1, retry => if retry + 1 > 200 then false else pollFlag busy (retry + 1)

/-- `SPI_TransferByte` (spi.c lines 83-108): waits for TXE and returns 0
without sending on timeout; otherwise sends `data`, waits for RXNE and
returns 0 on timeout; otherwise returns the received `uint8_t`. -/
def SPI_TransferByte (data : Nat) (b : Bus) : Nat × Bus :=
  match b.hw with
  | [] => (0, b)
  | h :: rest =>
    if pollFlag h.txBusy 0 then
      if pollFlag h.rxBusy 0 then
        (h.data % 256, { log := b.log ++ [.byte data], hw := rest })
      else (0, { log := b.log ++ [.byte data], hw := rest })
    else (0, { log := b.log, hw := rest })

/-- `Max31865_ReadRegister` (lines 152-179): the returned fault flag, the
globals and the bus afterwards. -/
def Max31865_ReadRegister (g : Globals) (b : Bus) : Nat × Globals × Bus :=
  let b := GPIO_ResetBits b
  let b := (SPI_TransferByte 0x01 b).2
  let x1 := SPI_TransferByte 0x00 b
  let g := { g with Max31865_reg1 := x1.1 }
  let x2 := SPI_TransferByte 0x00 x1.2
  let g := { g with Max31865_reg2 := x2.1 }
  let b := GPIO_SetBits x2.2
  let fullreg : Nat := ((g.Max31865_reg1 <<< 8) ||| g.Max31865_reg2) % 65536
  if fullreg &&& 0x01 ≠ 0 then
    let b := GPIO_ResetBits b
    let b := (SPI_TransferByte 0x80 b).2
    let b := (SPI_TransferByte 0xD2 b).2
    let b := GPIO_SetBits b
    (1, { g with Max31865_resistance_raw := fullreg >>> 1 }, b)
  else
    (0, { g with Max31865_resistance_raw := fullreg >>> 1 }, b)

/-! ## Reference Callendar-Van Dusen curve (IEC 60751), as the specification words it -/

/-- Reference resistance in ohms of a PT100 (R0 = 100 ohm) at `T10 / 10` degrees
Celsius: `R0 (1 + A T + B T^2 + C (T - 100) T^3)` with A = 3.9083e-3,
B = -5.775e-7, and C = -4.183e-12 applied only below 0 degrees. -/
def cvdReferenceOhms (T10 : Int) : ℚ :=
  let T : ℚ := (T10 : ℚ) / 10
  let A : ℚ := 39083 / 10000000
  let B : ℚ := -5775 / 10000000000
  let C : ℚ := if T < 0 then -4183 / 1000000000000000 else 0
  100 * (1 + A * T + B * T ^ 2 + C * (T - 100) * T ^ 3)

/-- The reference resistance in hundredths of an ohm, rounded to the nearest integer. -/
def cvdReferenceX100 (T10 : Int) : Int := round (100 * cvdReferenceOhms T10)

/-! ## The positive-branch update in unbounded integers -/

/-- Value of `Rcalc` (lines 76-78) at estimate `t` in unbounded integers with
C truncating division. -/
def posRcalcExact (t : Int) : Int :=
  R0_X100 + Int.tdiv (R0_X100 * A_S * t) (10 * 1000000000) +
    Int.tdiv (R0_X100 * B_S * (t * t)) (100 * 1000000000)

/-- The Newton update with derivative 3: `t <- clamp(t - trunc(f / 3), 0, 8500)`
with `f = Rcalc - R`. -/
def posUpdate3 (R t : Int) : Int := clampPos (t - Int.tdiv (posRcalcExact t - R) 3)

/-- Linear initial estimate of the positive branch in unbounded integers, clamped. -/
def posInitialExact (R : Int) : Int :=
  clampPos (Int.tdiv ((R - R0_X100) * 10 * 1000000000) (R0_X100 * A_S))

/-- The quadratic reference curve for temperatures from 0 degrees up, in
hundredths of an ohm and rounded to the nearest integer:
`10000 * (1 + A * (T/10) + B * (T/10)^2)` with A = 3.9083e-3, B = -5.775e-7. -/
def cvdQuadraticX100 (T10 : Int) : Int :=
  let T : ℚ := (T10 : ℚ) / 10
  let A : ℚ := 39083 / 10000000
  let B : ℚ := -5775 / 10000000000
  round (10000 * (1 + A * T + B * T ^ 2))

/-- The same rounded value in integer arithmetic (floor division). -/
def cvdQuadraticX100Int (T10 : Int) : Int :=
  (2 * (1000000000000 + 390830000 * T10 - 5775 * (T10 * T10)) + 100000000) / 200000000

/-- The four updates of the positive branch from the clamped linear estimate. -/
def posEngineExact (R : Int) : Int :=
  posUpdate3 R (posUpdate3 R (posUpdate3 R (posUpdate3 R (posInitialExact R))))

/-- Bounded universal check: `p k` holds for every `k < n`. -/
def allBelow (p : Nat → Bool) : Nat → Bool
  | 0 => true
  | n + 1 => p n && allBelow p n

/-- Bounded universal check on a window: `p (lo + k)` holds for every `k < n`. -/
def allFrom (p : Nat → Bool) (lo n : Nat) : Bool := allBelow (fun k => p (lo + k)) n

/-- The rounded quadratic reference of `cvdQuadraticX100Int` in natural numbers. -/
def refNat (T : Nat) : Nat :=
  (2 * (1000000000000 + 390830000 * T - 5775 * (T * T)) + 100000000) / 200000000

/-- The clamped linear estimate `posInitialExact` in natural numbers. -/
def initNat (R : Nat) : Nat := min 8500 ((R - 10000) * 10000000000 / 39083000000)

/-- The update `posUpdate3` in natural numbers: the estimate moves down by
`(Rcalc - R) / 3` (not below 0) or up by `(R - Rcalc) / 3` (not above 8500). -/
def stepNat (R t : Nat) : Nat :=
  let rc := 10000 + 39083000000 * t / 10000000000 - 5770000 * (t * t) / 100000000000
  if R ≤ rc then t - (rc - R) / 3 else min 8500 (t + (R - rc) / 3)

/-- The round-trip check of the positive range at temperature `T` (tenths of a
degree), evaluated in natural numbers. -/
def posRoundTripOk (T : Nat) : Bool :=
  let R := refNat T
  let t := stepNat R (stepNat R (stepNat R (stepNat R (initNat R))))
  decide (10000 ≤ R) && decide (R ≤ 100000000) && decide (t ≤ T + 2) && decide (T ≤ t + 2)

/-- The check behind the flat part of the negative branch at estimate `-k`:
`fp` is 0 and `r_calc` is a small value, under both readings of the arithmetic. -/
def negFlatOk (k : Nat) : Bool :=
  decide (negFp .wraps (-(k : Int)) = .ok 0) && decide (negFp .strict (-(k : Int)) = .ok 0) &&
    (match negRcalc .strict (-(k : Int)) with
      | .ok rc => decide (negRcalc .wraps (-(k : Int)) = .ok rc) && decide (0 ≤ rc) &&
          decide (rc ≤ 1000)
      | .error _ => false)

/-- The cubic reference curve below 0 degrees, in hundredths of an ohm:
`10000 * (1 + A*T + B*T^2 + C*(T - 100)*T^3)` with `T = t / 10`,
A = 3.9083e-3, B = -5.775e-7, C = -4.183e-12. -/
def cvdCubicX100 (t : Int) : ℚ :=
  let T : ℚ := (t : ℚ) / 10
  let A : ℚ := 39083 / 10000000
  let B : ℚ := -5775 / 10000000000
  let C : ℚ := -4183 / 1000000000000000
  10000 * (1 + A * T + B * T ^ 2 + C * (T - 100) * T ^ 3)

/-! ## Printing (`Max31865_PrintTemp` in `main.c`) -/

/-- C remainder `a % b` in type `ty`: the sign follows the dividend, a zero
divisor is a fault. -/
def cmod (sem : IntSem) (ty : CInt) (a b : Int) : Except Fault Int :=
  if b = 0 then .error .divZero else arith sem ty (Int.tmod a b)

/-- What `%d` prints for a value: a minus sign when the value is negative,
followed by the decimal digits of its magnitude. -/
structure PrintedInt where
  minus : Bool
  magnitude : Nat
  deriving DecidableEq, Repr

/-- The conversion `%d` of `printf`. -/
def printD (v : Int) : PrintedInt := ⟨decide (v < 0), v.natAbs⟩

/-- `Max31865_PrintTemp` (main.c lines 30-38): the two `%d` fields of the line
`Temperature: %d.%d C`, the integer part and the decimal digit. -/
def Max31865_PrintTemp (sem : IntSem) (g : Globals) :
    Except Fault (PrintedInt × PrintedInt) := do
  let q ← cdiv sem .i32 g.Max31865_temperature_x10 10
  let temp_int ← cast sem .i16 q
  let r ← cmod sem .i32 g.Max31865_temperature_x10 10
  let temp_dec ← cast sem .i16 r
  let temp_dec ← if temp_dec < 0 then (do
      let n ← arith sem .i32 (-temp_dec)
      cast sem .i16 n)
    else pure temp_dec
  pure (printD temp_int, printD temp_dec)

/-- The number, in tenths, that the text `i.d` denotes when it is read as a
signed decimal with one decimal digit: the sign is the leading minus sign of
the text. -/
def readTenths (p : PrintedInt × PrintedInt) : Int :=
  let m : Int := 10 * (p.1.magnitude : Int) + (p.2.magnitude : Int)
  if p.1.minus then -m else m

/-! ## Outcomes of a run -/

/-- The run ends with a value. -/
def Returns {α : Type} (x : Except Fault α) : Prop := ∃ a, x = .ok a

/-- The run does not end in a division by zero. -/
def NoDivZero {α : Type} (x : Except Fault α) : Prop := x ≠ .error .divZero

/-! ## Runs under wrap-around always end with a value -/

theorem returns_pure {α : Type} (a : α) : Returns (pure a : Except Fault α) := ⟨a, rfl⟩

theorem returns_bind {α β : Type} {x : Except Fault α} {f : α → Except Fault β}
    (hx : Returns x) (hf : ∀ a, Returns (f a)) : Returns (x >>= f) := by
  obtain ⟨a, rfl⟩ := hx
  exact hf a

theorem returns_arith (ty : CInt) (x : Int) : Returns (arith .wraps ty x) := ⟨_, rfl⟩

theorem returns_cast (ty : CInt) (x : Int) : Returns (cast .wraps ty x) := ⟨_, rfl⟩

theorem returns_cdiv (ty : CInt) (a b : Int) (hb : b ≠ 0) : Returns (cdiv .wraps ty a b) := by
  unfold cdiv
  rw [if_neg hb]
  exact returns_arith _ _

theorem noDivZero_pure {α : Type} (a : α) : NoDivZero (pure a : Except Fault α) := by
  intro h; cases h

theorem noDivZero_bind {α β : Type} {x : Except Fault α} {f : α → Except Fault β}
    (hx : NoDivZero x) (hf : ∀ a, NoDivZero (f a)) : NoDivZero (x >>= f) := by
  cases x with
  | ok a => exact hf a
  | error e =>
      intro h
      apply hx
      cases e <;> first | rfl | cases h

theorem noDivZero_arith (sem : IntSem) (ty : CInt) (x : Int) : NoDivZero (arith sem ty x) := by
  unfold arith NoDivZero
  cases sem
  · simp
  · by_cases h : ty.fits x <;> simp [h]

theorem noDivZero_cast (sem : IntSem) (ty : CInt) (x : Int) : NoDivZero (cast sem ty x) := by
  unfold cast NoDivZero
  cases sem
  · simp
  · by_cases h : ty.fits x <;> simp [h]

theorem noDivZero_cdiv (sem : IntSem) (ty : CInt) (a b : Int) (hb : b ≠ 0) :
    NoDivZero (cdiv sem ty a b) := by
  unfold cdiv
  rw [if_neg hb]
  exact noDivZero_arith _ _ _

theorem returns_scaleRaw (raw : Nat) : Returns (scaleRaw .wraps raw) := by
  unfold scaleRaw
  repeat with_reducible first
    | refine returns_bind ?_ (fun _ => ?_)
    | exact returns_arith _ _
    | exact returns_cast _ _
    | exact returns_cdiv _ _ _ (by decide)

theorem returns_posInitial (R : Int) : Returns (posInitial .wraps R) := by
  unfold posInitial
  repeat with_reducible first
    | refine returns_bind ?_ (fun _ => ?_)
    | exact returns_arith _ _
    | exact returns_cast _ _
    | exact returns_cdiv _ _ _ (by decide)

theorem returns_posRcalc (t : Int) : Returns (posRcalc .wraps t) := by
  unfold posRcalc
  repeat with_reducible first
    | refine returns_bind ?_ (fun _ => ?_)
    | exact returns_arith _ _
    | exact returns_cdiv _ _ _ (by decide)

theorem returns_posDRdt (t : Int) : Returns (posDRdt .wraps t) := by
  unfold posDRdt
  repeat with_reducible first
    | refine returns_bind ?_ (fun _ => ?_)
    | exact returns_arith _ _
    | exact returns_cdiv _ _ _ (by decide)

theorem returns_posLoop (R : Int) (n : Nat) : ∀ t, Returns (posLoop .wraps R n t) := by
  induction n with
  | zero => intro t; exact returns_pure t
  | succ n ih =>
      intro t
      unfold posLoop
      refine returns_bind (returns_posRcalc t) (fun _ => ?_)
      refine returns_bind (returns_arith _ _) (fun _ => ?_)
      refine returns_bind (returns_posDRdt t) (fun d => ?_)
      by_cases hd : d = 0
      · rw [if_pos hd]; exact returns_pure t
      · rw [if_neg hd]
        refine returns_bind (returns_cdiv _ _ _ hd) (fun _ => ?_)
        refine returns_bind (returns_cast _ _) (fun _ => ?_)
        refine returns_bind (returns_arith _ _) (fun _ => ?_)
        exact ih _

theorem returns_posBranch (R : Int) : Returns (posBranch .wraps R) := by
  unfold posBranch
  exact returns_bind (returns_posInitial R) (fun _ => returns_posLoop R 4 _)

theorem returns_negInitial (R : Int) : Returns (negInitial .wraps R) := by
  unfold negInitial
  repeat with_reducible first
    | refine returns_bind ?_ (fun _ => ?_)
    | exact returns_arith _ _
    | exact returns_cdiv _ _ _ (by decide)

theorem returns_negT2 (t : Int) : Returns (negT2 .wraps t) := by
  unfold negT2
  exact returns_bind (returns_arith _ _) (fun _ => returns_cdiv _ _ _ (by decide))

theorem returns_negT3 (t t2 : Int) : Returns (negT3 .wraps t t2) := by
  unfold negT3
  exact returns_bind (returns_arith _ _) (fun _ => returns_cdiv _ _ _ (by decide))

theorem returns_negRcalc (t : Int) : Returns (negRcalc .wraps t) := by
  unfold negRcalc
  repeat with_reducible first
    | refine returns_bind ?_ (fun _ => ?_)
    | exact returns_negT2 _
    | exact returns_negT3 _ _
    | exact returns_arith _ _
    | exact returns_cdiv _ _ _ (by decide)

theorem returns_negFp (t : Int) : Returns (negFp .wraps t) := by
  unfold negFp
  repeat with_reducible first
    | refine returns_bind ?_ (fun _ => ?_)
    | exact returns_negT2 _
    | exact returns_negT3 _ _
    | exact returns_arith _ _
    | exact returns_cdiv _ _ _ (by decide)

theorem returns_negStep (R t : Int) : Returns (negStep .wraps R t) := by
  unfold negStep
  refine returns_bind (returns_negRcalc t) (fun _ => ?_)
  refine returns_bind (returns_arith _ _) (fun _ => ?_)
  refine returns_bind (returns_negFp t) (fun fp => ?_)
  by_cases hd : fp = 0
  · rw [if_neg (not_not.mpr hd)]; exact returns_pure t
  · rw [if_pos hd]
    refine returns_bind (returns_arith _ _) (fun _ => ?_)
    refine returns_bind (returns_cdiv _ _ _ hd) (fun _ => ?_)
    exact returns_bind (returns_cast _ _) (fun _ => returns_arith _ _)

theorem returns_negLoop (R : Int) (n : Nat) : ∀ t, Returns (negLoop .wraps R n t) := by
  induction n with
  | zero => intro t; exact returns_pure t
  | succ n ih =>
      intro t
      unfold negLoop
      exact returns_bind (returns_negStep R t) (fun _ => ih _)

theorem returns_negBranch (R : Int) : Returns (negBranch .wraps R) := by
  unfold negBranch
  exact returns_bind (returns_negInitial R) (fun _ => returns_negLoop R 3 _)

theorem returns_branchEstimate (R : Int) : Returns (branchEstimate .wraps R) := by
  unfold branchEstimate
  split
  · exact returns_posBranch R
  · exact returns_negBranch R

theorem clampFinal_bounds (T : Int) : -2000 ≤ clampFinal T ∧ clampFinal T ≤ 8500 := by
  unfold clampFinal
  dsimp only
  split_ifs <;> omega

theorem convertScaled_wraps (R : Int) :
    ∃ t, branchEstimate .wraps R = .ok t ∧
      convertScaled .wraps R = .ok (clampFinal (CInt.wrap .i16 t)) := by
  obtain ⟨t, ht⟩ := returns_branchEstimate R
  refine ⟨t, ht, ?_⟩
  unfold convertScaled
  rw [ht]
  rfl

theorem convertScaled_ok_bounds (sem : IntSem) (R T : Int) (h : convertScaled sem R = .ok T) :
    -2000 ≤ T ∧ T ≤ 8500 := by
  unfold convertScaled at h
  cases hb : branchEstimate sem R with
  | error e => rw [hb] at h; cases h
  | ok t =>
      rw [hb] at h
      change (cast sem .i16 t >>= fun T => pure (clampFinal T)) = .ok T at h
      cases hc : cast sem .i16 t with
      | error e => rw [hc] at h; cases h
      | ok T0 =>
          rw [hc] at h
          cases h
          exact clampFinal_bounds T0

/-! ## Register interpreter lemmas -/

theorem fullreg_eq (msb lsb : Nat) (hm : msb < 256) (hl : lsb < 256) :
    ((msb <<< 8) ||| lsb) % 65536 = 256 * msb + lsb := by
  have h := @Nat.mul_add_lt_is_or 8 lsb (by omega) msb
  rw [Nat.shiftLeft_eq, Nat.mul_comm msb (2 ^ 8), ← h]
  omega

/-! ## No division has a zero divisor -/

theorem noDivZero_scaleRaw (sem : IntSem) (raw : Nat) : NoDivZero (scaleRaw sem raw) := by
  unfold scaleRaw
  repeat with_reducible first
    | refine noDivZero_bind ?_ (fun _ => ?_)
    | exact noDivZero_arith _ _ _
    | exact noDivZero_cast _ _ _
    | exact noDivZero_cdiv _ _ _ _ (by decide)

theorem noDivZero_posInitial (sem : IntSem) (R : Int) : NoDivZero (posInitial sem R) := by
  unfold posInitial
  repeat with_reducible first
    | refine noDivZero_bind ?_ (fun _ => ?_)
    | exact noDivZero_arith _ _ _
    | exact noDivZero_cast _ _ _
    | exact noDivZero_cdiv _ _ _ _ (by decide)

theorem noDivZero_posRcalc (sem : IntSem) (t : Int) : NoDivZero (posRcalc sem t) := by
  unfold posRcalc
  repeat with_reducible first
    | refine noDivZero_bind ?_ (fun _ => ?_)
    | exact noDivZero_arith _ _ _
    | exact noDivZero_cdiv _ _ _ _ (by decide)

theorem noDivZero_posDRdt (sem : IntSem) (t : Int) : NoDivZero (posDRdt sem t) := by
  unfold posDRdt
  repeat with_reducible first
    | refine noDivZero_bind ?_ (fun _ => ?_)
    | exact noDivZero_arith _ _ _
    | exact noDivZero_cdiv _ _ _ _ (by decide)

theorem noDivZero_posLoop (sem : IntSem) (R : Int) (n : Nat) :
    ∀ t, NoDivZero (posLoop sem R n t) := by
  induction n with
  | zero => intro t; exact noDivZero_pure t
  | succ n ih =>
      intro t
      unfold posLoop
      refine noDivZero_bind (noDivZero_posRcalc sem t) (fun _ => ?_)
      refine noDivZero_bind (noDivZero_arith _ _ _) (fun _ => ?_)
      refine noDivZero_bind (noDivZero_posDRdt sem t) (fun d => ?_)
      by_cases hd : d = 0
      · rw [if_pos hd]; exact noDivZero_pure t
      · rw [if_neg hd]
        refine noDivZero_bind (noDivZero_cdiv _ _ _ _ hd) (fun _ => ?_)
        refine noDivZero_bind (noDivZero_cast _ _ _) (fun _ => ?_)
        refine noDivZero_bind (noDivZero_arith _ _ _) (fun _ => ?_)
        exact ih _

theorem noDivZero_posBranch (sem : IntSem) (R : Int) : NoDivZero (posBranch sem R) := by
  unfold posBranch
  exact noDivZero_bind (noDivZero_posInitial sem R) (fun _ => noDivZero_posLoop sem R 4 _)

theorem noDivZero_negInitial (sem : IntSem) (R : Int) : NoDivZero (negInitial sem R) := by
  unfold negInitial
  repeat with_reducible first
    | refine noDivZero_bind ?_ (fun _ => ?_)
    | exact noDivZero_arith _ _ _
    | exact noDivZero_cdiv _ _ _ _ (by decide)

theorem noDivZero_negT2 (sem : IntSem) (t : Int) : NoDivZero (negT2 sem t) := by
  unfold negT2
  exact noDivZero_bind (noDivZero_arith _ _ _) (fun _ => noDivZero_cdiv _ _ _ _ (by decide))

theorem noDivZero_negT3 (sem : IntSem) (t t2 : Int) : NoDivZero (negT3 sem t t2) := by
  unfold negT3
  exact noDivZero_bind (noDivZero_arith _ _ _) (fun _ => noDivZero_cdiv _ _ _ _ (by decide))

theorem noDivZero_negRcalc (sem : IntSem) (t : Int) : NoDivZero (negRcalc sem t) := by
  unfold negRcalc
  repeat with_reducible first
    | refine noDivZero_bind ?_ (fun _ => ?_)
    | exact noDivZero_negT2 _ _
    | exact noDivZero_negT3 _ _ _
    | exact noDivZero_arith _ _ _
    | exact noDivZero_cdiv _ _ _ _ (by decide)

theorem noDivZero_negFp (sem : IntSem) (t : Int) : NoDivZero (negFp sem t) := by
  unfold negFp
  repeat with_reducible first
    | refine noDivZero_bind ?_ (fun _ => ?_)
    | exact noDivZero_negT2 _ _
    | exact noDivZero_negT3 _ _ _
    | exact noDivZero_arith _ _ _
    | exact noDivZero_cdiv _ _ _ _ (by decide)

theorem noDivZero_negStep (sem : IntSem) (R t : Int) : NoDivZero (negStep sem R t) := by
  unfold negStep
  refine noDivZero_bind (noDivZero_negRcalc sem t) (fun _ => ?_)
  refine noDivZero_bind (noDivZero_arith _ _ _) (fun _ => ?_)
  refine noDivZero_bind (noDivZero_negFp sem t) (fun fp => ?_)
  by_cases hd : fp = 0
  · rw [if_neg (not_not.mpr hd)]; exact noDivZero_pure t
  · rw [if_pos hd]
    refine noDivZero_bind (noDivZero_arith _ _ _) (fun _ => ?_)
    refine noDivZero_bind (noDivZero_cdiv _ _ _ _ hd) (fun _ => ?_)
    exact noDivZero_bind (noDivZero_cast _ _ _) (fun _ => noDivZero_arith _ _ _)

theorem noDivZero_negLoop (sem : IntSem) (R : Int) (n : Nat) :
    ∀ t, NoDivZero (negLoop sem R n t) := by
  induction n with
  | zero => intro t; exact noDivZero_pure t
  | succ n ih =>
      intro t
      unfold negLoop
      exact noDivZero_bind (noDivZero_negStep sem R t) (fun _ => ih _)

theorem noDivZero_negBranch (sem : IntSem) (R : Int) : NoDivZero (negBranch sem R) := by
  unfold negBranch
  exact noDivZero_bind (noDivZero_negInitial sem R) (fun _ => noDivZero_negLoop sem R 3 _)

theorem noDivZero_convertScaled (sem : IntSem) (R : Int) : NoDivZero (convertScaled sem R) := by
  unfold convertScaled branchEstimate
  refine noDivZero_bind ?_ (fun _ => noDivZero_bind (noDivZero_cast _ _ _) (fun _ => noDivZero_pure _))
  split
  · exact noDivZero_posBranch sem R
  · exact noDivZero_negBranch sem R

theorem noDivZero_convert (sem : IntSem) (g : Globals) :
    NoDivZero (Max31865_ConvertToTemperature sem g) := by
  unfold Max31865_ConvertToTemperature
  refine noDivZero_bind (noDivZero_scaleRaw sem _) (fun _ => ?_)
  exact noDivZero_bind (noDivZero_convertScaled sem _) (fun _ => noDivZero_pure _)

theorem posLoop_zero_derivative (sem : IntSem) (R t rc f : Int) (n : Nat)
    (h1 : posRcalc sem t = .ok rc) (h2 : arith sem .i64 (rc - R) = .ok f)
    (h3 : posDRdt sem t = .ok 0) : posLoop sem R (n + 1) t = .ok t := by
  unfold posLoop
  rw [h1]
  show (arith sem .i64 (rc - R) >>= _) = _
  rw [h2]
  show (posDRdt sem t >>= _) = _
  rw [h3]
  rfl

theorem negStep_zero_derivative (sem : IntSem) (R t rc f : Int)
    (h1 : negRcalc sem t = .ok rc) (h2 : arith sem .i64 (rc - R) = .ok f)
    (h3 : negFp sem t = .ok 0) : negStep sem R t = .ok t := by
  unfold negStep
  rw [h1]
  show (arith sem .i64 (rc - R) >>= _) = _
  rw [h2]
  show (negFp sem t >>= _) = _
  rw [h3]
  rfl

theorem convert_of_parts (sem : IntSem) (g : Globals) (R T : Int)
    (h1 : scaleRaw sem g.Max31865_resistance_raw = .ok R)
    (h2 : convertScaled sem R = .ok T) :
    Max31865_ConvertToTemperature sem g =
      .ok { g with Max31865_resistance_x100 := R, Max31865_temperature_x10 := T } := by
  unfold Max31865_ConvertToTemperature
  rw [h1]
  show (convertScaled sem R >>= _) = _
  rw [h2]
  rfl

/-! ## Claims about the conversion engine -/

/-- C1: for every RawCode (in particular every RawCode in 0..32767, hence
every ScaledResistance the scaling produces) the run of
`Max31865_ConvertToTemperature` on the wrap-around machine ends and leaves
`Max31865_temperature_x10` in [-2000, 8500]; under strict C rules every run
that ends leaves it in the same range. -/
theorem convert_temperature_in_clamp_range (g : Globals) :
    (∃ g1, Max31865_ConvertToTemperature .wraps g = .ok g1 ∧
        -2000 ≤ g1.Max31865_temperature_x10 ∧ g1.Max31865_temperature_x10 ≤ 8500) ∧
    (∀ g1, Max31865_ConvertToTemperature .strict g = .ok g1 →
        -2000 ≤ g1.Max31865_temperature_x10 ∧ g1.Max31865_temperature_x10 ≤ 8500) := by
  constructor
  · obtain ⟨R, hR⟩ := returns_scaleRaw g.Max31865_resistance_raw
    obtain ⟨t, -, hT⟩ := convertScaled_wraps R
    exact ⟨_, convert_of_parts .wraps g R _ hR hT, clampFinal_bounds _⟩
  · intro g1 h
    unfold Max31865_ConvertToTemperature at h
    cases hR : scaleRaw .strict g.Max31865_resistance_raw with
    | error e => rw [hR] at h; cases h
    | ok R =>
        rw [hR] at h
        cases hT : convertScaled .strict R with
        | error e =>
            change (convertScaled .strict R >>= _) = _ at h
            rw [hT] at h; cases h
        | ok T =>
            change (convertScaled .strict R >>= _) = _ at h
            rw [hT] at h
            cases h
            exact convertScaled_ok_bounds .strict R T hT

/-- Witness for C1 at RawCode 10654 (138.50 ohm): both readings of the run end
with Temperature 1000. -/
theorem convert_temperature_in_clamp_range_witness :
    (∃ g1, Max31865_ConvertToTemperature .wraps ⟨10654, 0, 0, 0, 0⟩ = .ok g1 ∧
        -2000 ≤ g1.Max31865_temperature_x10 ∧ g1.Max31865_temperature_x10 ≤ 8500) ∧
    ((-2000 : Int) ≤ 1000 ∧ (1000 : Int) ≤ 8500) :=
  ⟨(convert_temperature_in_clamp_range ⟨10654, 0, 0, 0, 0⟩).1,
   (convert_temperature_in_clamp_range ⟨10654, 0, 0, 0, 0⟩).2 ⟨10654, 13850, 1000, 0, 0⟩
      (by decide)⟩

/-- C2 (fails on the code): at T = -2000 the reference resistance is 1852 and
the engine returns 3536; at T = -500 the reference resistance is 8031 and the
engine returns -503.  Both are further than 2 tenths from T. -/
theorem roundtrip_fails_below_zero (sem : IntSem) :
    cvdReferenceX100 (-2000) = 1852 ∧ convertScaled sem 1852 = .ok 3536 ∧
    cvdReferenceX100 (-500) = 8031 ∧ convertScaled sem 8031 = .ok (-503) ∧
    ¬ (|(3536 : Int) - (-2000)| ≤ 2) ∧ ¬ (|(-503 : Int) - (-500)| ≤ 2) := by
  refine ⟨?_, ?_, ?_, ?_, by decide, by decide⟩
  · unfold cvdReferenceX100 cvdReferenceOhms
    norm_num [round_eq, Int.floor_eq_iff]
  · cases sem <;> decide
  · unfold cvdReferenceX100 cvdReferenceOhms
    norm_num [round_eq, Int.floor_eq_iff]
  · cases sem <;> decide

/-- C3 (fails on the code): RawCode 0 gives ScaledResistance 0 and selects the
negative branch, but the Temperature left is -644, not -2000. -/
theorem rawcode_zero_gives_minus_644 (sem : IntSem) (r T : Int) (a b : Nat) :
    scaleRaw sem 0 = .ok 0 ∧ usesPositiveBranch 0 = false ∧
    negInitial sem 0 = .ok (-2558) ∧ negBranch sem 0 = .ok (-644) ∧
    Max31865_ConvertToTemperature sem ⟨0, r, T, a, b⟩ = .ok ⟨0, 0, -644, a, b⟩ := by
  cases sem <;>
    exact ⟨by decide, by decide, by decide, by decide,
      convert_of_parts _ ⟨0, r, T, a, b⟩ 0 (-644)
        (by show scaleRaw _ 0 = _; decide) (by decide)⟩

/-- C4 (fails on the code): RawCode 1425 scales to 1852 (18.52 ohm) and the
engine returns Temperature 3536, which is not at most -1998. -/
theorem resistance_1852_gives_3536 (sem : IntSem) :
    scaleRaw sem 1425 = .ok 1852 ∧ usesPositiveBranch 1852 = false ∧
    negInitial sem 1852 = .ok (-2084) ∧ negStep sem 1852 (-2084) = .ok 7556 ∧
    convertScaled sem 1852 = .ok 3536 ∧ ¬ ((3536 : Int) ≤ -1998) := by
  cases sem <;> exact ⟨by decide, by decide, by decide, by decide, by decide, by decide⟩

/-- C5: for ScaledResistance 10000 (exactly 100.00 ohm) the engine takes the
positive branch and returns Temperature 0 exactly. -/
theorem resistance_10000_gives_zero (sem : IntSem) :
    usesPositiveBranch 10000 = true ∧ convertScaled sem 10000 = .ok 0 := by
  cases sem <;> exact ⟨by decide, by decide⟩

/-- C6: RawCode 10654 scales to 13850 (138.50 ohm), and for ScaledResistance
13850 the engine returns a Temperature T with |T - 1000| <= 2 (it is 1000). -/
theorem resistance_13850_gives_100_degrees (sem : IntSem) :
    scaleRaw sem 10654 = .ok 13850 ∧
    ∃ T, convertScaled sem 13850 = .ok T ∧ |T - 1000| ≤ 2 := by
  cases sem <;> exact ⟨by decide, 1000, by decide, by decide⟩

/-- C9 (fails on the code): at RawCode 2270 (ScaledResistance 2951) the first
negative-branch iteration moves the estimate from -1803 to 12452, and in the
second iteration the product `MAX31865_C * t_minus_100 * t3` of line 118 is
-9248824289980635360, below the least `int64_t`; under strict C rules the run
ends in a signed overflow. -/
theorem int64_overflow_at_rawcode_2270 :
    scaleRaw .strict 2270 = .ok 2951 ∧ negInitial .strict 2951 = .ok (-1803) ∧
    negStep .strict 2951 (-1803) = .ok 12452 ∧
    negT2 .strict 12452 = .ok 15505230 ∧ negT3 .strict 12452 15505230 = .ok 19307112396 ∧
    MAX31865_C * (12452 - 1000) * 19307112396 = -9248824289980635360 ∧
    ¬ CInt.fits .i64 (-9248824289980635360) ∧
    negRcalc .strict 12452 = .error .overflow ∧
    Max31865_ConvertToTemperature .strict ⟨2270, 0, 0, 0, 0⟩ = .error .overflow ∧
    Max31865_ConvertToTemperature .wraps ⟨2270, 0, 0, 0, 0⟩ = .ok ⟨2270, 2951, 8500, 0, 0⟩ := by
  refine ⟨by decide, by decide, by decide, by decide, by decide, by decide, by decide,
    by decide, by decide, by decide⟩

/-- C10: no run of `Max31865_ConvertToTemperature`, for any RawCode and under
either reading of the arithmetic, ends in a division by zero; in the positive
branch a zero `dRdt` ends the loop with the current estimate, and in the
negative branch a zero `fp` leaves the estimate of that iteration unchanged. -/
theorem no_division_by_zero :
    (∀ sem g, NoDivZero (Max31865_ConvertToTemperature sem g)) ∧
    (∀ sem R t rc f n, posRcalc sem t = .ok rc → arith sem .i64 (rc - R) = .ok f →
        posDRdt sem t = .ok 0 → posLoop sem R (n + 1) t = .ok t) ∧
    (∀ sem R t rc f, negRcalc sem t = .ok rc → arith sem .i64 (rc - R) = .ok f →
        negFp sem t = .ok 0 → negStep sem R t = .ok t) :=
  ⟨noDivZero_convert,
   fun sem R t rc f n => posLoop_zero_derivative sem R t rc f n,
   fun sem R t rc f => negStep_zero_derivative sem R t rc f⟩

/-- Witness for C10: the derivative is zero at estimate 26000 in the positive
branch and at estimate -100 in the negative branch. -/
theorem no_division_by_zero_witness :
    NoDivZero (Max31865_ConvertToTemperature .strict ⟨2270, 0, 0, 0, 0⟩) ∧
    posLoop .strict 20000 4 26000 = .ok 26000 ∧
    negStep .strict 9000 (-100) = .ok (-100) :=
  ⟨no_division_by_zero.1 .strict ⟨2270, 0, 0, 0, 0⟩,
   no_division_by_zero.2.1 .strict 20000 26000 72610 52610 3 (by decide) (by decide) (by decide),
   no_division_by_zero.2.2 .strict 9000 (-100) 960 (-8040) (by decide) (by decide) (by decide)⟩

/-! ## The SPI transfer and the parts of the register interpreter -/

theorem pollFlag_iff (busy : Nat) :
    ∀ retry, pollFlag busy retry = true ↔ busy = 0 ∨ busy + retry ≤ 200 := by
  induction busy with
  | zero => intro retry; simp [pollFlag]
  | succ n ih =>
      intro retry
      unfold pollFlag
      by_cases h : retry + 1 > 200
      · simp only [h, if_true]
        constructor
        · intro hf; cases hf
        · intro hf; omega
      · simp only [h, if_false]
        rw [ih (retry + 1)]
        omega

theorem pollFlag_zero (busy : Nat) : pollFlag busy 0 = true ↔ busy ≤ 200 := by
  rw [pollFlag_iff]
  omega

theorem transfer_lt (d : Nat) (b : Bus) : (SPI_TransferByte d b).1 < 256 := by
  unfold SPI_TransferByte
  split
  · exact Nat.zero_lt_succ _
  · split_ifs
    · exact Nat.mod_lt _ (by decide)
    · exact Nat.zero_lt_succ _
    · exact Nat.zero_lt_succ _

theorem transfer_receives (d : Nat) (log : List BusEvent) (h : HwTransfer)
    (rest : List HwTransfer) (ht : h.txBusy ≤ 200) (hr : h.rxBusy ≤ 200) :
    (SPI_TransferByte d ⟨log, h :: rest⟩).1 = h.data % 256 := by
  have h1 := (pollFlag_zero h.txBusy).mpr ht
  have h2 := (pollFlag_zero h.rxBusy).mpr hr
  simp only [SPI_TransferByte, h1, h2, if_true]

/-- The register interpreter in terms of its second and third transfer. -/
theorem readRegister_parts (g : Globals) (b : Bus) :
    (Max31865_ReadRegister g b).2.1.Max31865_reg1 =
      (SPI_TransferByte 0x00 (SPI_TransferByte 0x01 (GPIO_ResetBits b)).2).1 ∧
    (Max31865_ReadRegister g b).2.1.Max31865_reg2 =
      (SPI_TransferByte 0x00
        (SPI_TransferByte 0x00 (SPI_TransferByte 0x01 (GPIO_ResetBits b)).2).2).1 ∧
    (Max31865_ReadRegister g b).2.1.Max31865_resistance_raw =
      128 * (Max31865_ReadRegister g b).2.1.Max31865_reg1 +
        (Max31865_ReadRegister g b).2.1.Max31865_reg2 / 2 ∧
    (Max31865_ReadRegister g b).1 =
      (if (Max31865_ReadRegister g b).2.1.Max31865_reg2 % 2 = 1 then 1 else 0) ∧
    (Max31865_ReadRegister g b).2.2 =
      (if (Max31865_ReadRegister g b).2.1.Max31865_reg2 % 2 = 1 then
        GPIO_SetBits (SPI_TransferByte 0xD2 (SPI_TransferByte 0x80 (GPIO_ResetBits
          (GPIO_SetBits (SPI_TransferByte 0x00 (SPI_TransferByte 0x00
            (SPI_TransferByte 0x01 (GPIO_ResetBits b)).2).2).2))).2).2
      else
        GPIO_SetBits (SPI_TransferByte 0x00 (SPI_TransferByte 0x00
          (SPI_TransferByte 0x01 (GPIO_ResetBits b)).2).2).2) := by
  have hm := transfer_lt 0x00 (SPI_TransferByte 0x01 (GPIO_ResetBits b)).2
  have hl := transfer_lt 0x00
    (SPI_TransferByte 0x00 (SPI_TransferByte 0x01 (GPIO_ResetBits b)).2).2
  unfold Max31865_ReadRegister
  dsimp only
  generalize SPI_TransferByte 0x00 (SPI_TransferByte 0x01 (GPIO_ResetBits b)).2 = x1 at hm hl ⊢
  generalize SPI_TransferByte 0x00 x1.2 = x2 at hl ⊢
  have hbit : (256 * x1.1 + x2.1) &&& 1 = x2.1 % 2 := by
    rw [Nat.and_one_is_mod]; omega
  have hshift : (256 * x1.1 + x2.1) >>> 1 = 128 * x1.1 + x2.1 / 2 := by
    rw [Nat.shiftRight_eq_div_pow]; omega
  rw [fullreg_eq x1.1 x2.1 hm hl, hbit, hshift]
  by_cases h : x2.1 % 2 = 1
  · have h0 : x2.1 % 2 ≠ 0 := by omega
    simp [h, h0]
  · have h0 : x2.1 % 2 = 0 := by omega
    simp [h, h0]

theorem transfer_consumes (d : Nat) (log : List BusEvent) (h : HwTransfer)
    (rest : List HwTransfer) :
    ∃ log1, (SPI_TransferByte d ⟨log, h :: rest⟩).2 = ⟨log1, rest⟩ := by
  simp only [SPI_TransferByte]
  split_ifs
  · exact ⟨_, rfl⟩
  · exact ⟨_, rfl⟩
  · exact ⟨_, rfl⟩

theorem readRegister_regs (g : Globals) (log : List BusEvent) (h1 h2 h3 : HwTransfer)
    (rest : List HwTransfer) :
    (h2.txBusy ≤ 200 → h2.rxBusy ≤ 200 →
      (Max31865_ReadRegister g ⟨log, h1 :: h2 :: h3 :: rest⟩).2.1.Max31865_reg1 =
        h2.data % 256) ∧
    (h3.txBusy ≤ 200 → h3.rxBusy ≤ 200 →
      (Max31865_ReadRegister g ⟨log, h1 :: h2 :: h3 :: rest⟩).2.1.Max31865_reg2 =
        h3.data % 256) := by
  obtain ⟨e1, e2, -⟩ := readRegister_parts g ⟨log, h1 :: h2 :: h3 :: rest⟩
  rw [e1, e2]
  obtain ⟨l1, hl1⟩ := transfer_consumes 0x01 (log ++ [.csLow]) h1 (h2 :: h3 :: rest)
  have hg : GPIO_ResetBits ⟨log, h1 :: h2 :: h3 :: rest⟩ =
      ⟨log ++ [.csLow], h1 :: h2 :: h3 :: rest⟩ := rfl
  rw [hg, hl1]
  obtain ⟨l2, hl2⟩ := transfer_consumes 0x00 l1 h2 (h3 :: rest)
  rw [hl2]
  exact ⟨fun t r => transfer_receives _ _ _ _ t r, fun t r => transfer_receives _ _ _ _ t r⟩

/-- C8: for every received byte pair (msb, lsb) in 0..255 (the second and third
transfer deliver them without timeout), `Max31865_ReadRegister` sets RawCode
to ((msb << 8) | lsb) >> 1, which equals 128*msb + floor(lsb/2) and lies in
0..32767; a second pair that differs from (msb, lsb) at most in bit 0 of lsb
(the fault bit) gives the same RawCode.  In every run, timeouts included,
RawCode is ((reg1 << 8) | reg2) >> 1 = 128*reg1 + floor(reg2/2) <= 32767 for
the two register bytes stored. -/
theorem readRegister_rawCode (g : Globals) (log : List BusEvent) (h1 : HwTransfer)
    (a1 a2 b1 b2 msb lsb : Nat) (rest : List HwTransfer)
    (ha1 : a1 ≤ 200) (ha2 : a2 ≤ 200) (hb1 : b1 ≤ 200) (hb2 : b2 ≤ 200)
    (hm : msb < 256) (hl : lsb < 256) :
    (Max31865_ReadRegister g
        ⟨log, h1 :: ⟨a1, a2, msb⟩ :: ⟨b1, b2, lsb⟩ :: rest⟩).2.1.Max31865_resistance_raw
      = ((msb <<< 8) ||| lsb) >>> 1 ∧
    (Max31865_ReadRegister g
        ⟨log, h1 :: ⟨a1, a2, msb⟩ :: ⟨b1, b2, lsb⟩ :: rest⟩).2.1.Max31865_resistance_raw
      = 128 * msb + lsb / 2 ∧
    (Max31865_ReadRegister g
        ⟨log, h1 :: ⟨a1, a2, msb⟩ :: ⟨b1, b2, lsb⟩ :: rest⟩).2.1.Max31865_resistance_raw
      ≤ 32767 ∧
    (∀ lsb2, lsb2 < 256 → lsb2 / 2 = lsb / 2 →
      (Max31865_ReadRegister g
        ⟨log, h1 :: ⟨a1, a2, msb⟩ :: ⟨b1, b2, lsb2⟩ :: rest⟩).2.1.Max31865_resistance_raw =
      (Max31865_ReadRegister g
        ⟨log, h1 :: ⟨a1, a2, msb⟩ :: ⟨b1, b2, lsb⟩ :: rest⟩).2.1.Max31865_resistance_raw) ∧
    (∀ g0 b0,
      (Max31865_ReadRegister g0 b0).2.1.Max31865_resistance_raw =
        (((Max31865_ReadRegister g0 b0).2.1.Max31865_reg1 <<< 8) |||
          (Max31865_ReadRegister g0 b0).2.1.Max31865_reg2) >>> 1 ∧
      (Max31865_ReadRegister g0 b0).2.1.Max31865_resistance_raw =
        128 * (Max31865_ReadRegister g0 b0).2.1.Max31865_reg1 +
          (Max31865_ReadRegister g0 b0).2.1.Max31865_reg2 / 2 ∧
      (Max31865_ReadRegister g0 b0).2.1.Max31865_resistance_raw ≤ 32767) := by
  have hor : ∀ m l, m < 256 → l < 256 → ((m <<< 8) ||| l) >>> 1 = 128 * m + l / 2 := by
    intro m l hm2 hl2
    have h := fullreg_eq m l hm2 hl2
    have h2 : (m <<< 8 ||| l) = 256 * m + l := by
      have hlt : m <<< 8 ||| l < 65536 := by
        have h3 : m <<< 8 < 2 ^ 16 := by rw [Nat.shiftLeft_eq]; omega
        have h4 : l < 2 ^ 16 := by omega
        exact @Nat.or_lt_two_pow _ _ 16 h3 h4
      omega
    rw [h2, Nat.shiftRight_eq_div_pow]; omega
  have hraw : ∀ l, l < 256 →
      (Max31865_ReadRegister g
        ⟨log, h1 :: ⟨a1, a2, msb⟩ :: ⟨b1, b2, l⟩ :: rest⟩).2.1.Max31865_resistance_raw
        = 128 * msb + l / 2 := by
    intro l hl2
    obtain ⟨-, -, e3, -⟩ :=
      readRegister_parts g ⟨log, h1 :: ⟨a1, a2, msb⟩ :: ⟨b1, b2, l⟩ :: rest⟩
    obtain ⟨r1, r2⟩ := readRegister_regs g log h1 ⟨a1, a2, msb⟩ ⟨b1, b2, l⟩ rest
    rw [e3, r1 ha1 ha2, r2 hb1 hb2]
    show 128 * (msb % 256) + l % 256 / 2 = _
    rw [Nat.mod_eq_of_lt hm, Nat.mod_eq_of_lt hl2]
  refine ⟨?_, hraw lsb hl, ?_, ?_, ?_⟩
  · rw [hraw lsb hl, hor msb lsb hm hl]
  · rw [hraw lsb hl]; omega
  · intro lsb2 h2 heq
    rw [hraw lsb2 h2, hraw lsb hl, heq]
  · intro g0 b0
    obtain ⟨e1, e2, e3, -⟩ := readRegister_parts g0 b0
    have hm0 : (Max31865_ReadRegister g0 b0).2.1.Max31865_reg1 < 256 := by
      rw [e1]; exact transfer_lt _ _
    have hl0 : (Max31865_ReadRegister g0 b0).2.1.Max31865_reg2 < 256 := by
      rw [e2]; exact transfer_lt _ _
    refine ⟨?_, e3, ?_⟩
    · rw [hor _ _ hm0 hl0]; exact e3
    · rw [e3]; omega

/-- Witness for C8: the pairs (0x12, 0x35) and (0x12, 0x34) both give RawCode 0x091A. -/
theorem readRegister_rawCode_witness :
    (Max31865_ReadRegister ⟨0, 0, 0, 0, 0⟩
      ⟨[], [⟨0, 0, 0⟩, ⟨0, 0, 0x12⟩, ⟨0, 0, 0x35⟩]⟩).2.1.Max31865_resistance_raw
      = 128 * 0x12 + 0x35 / 2 ∧
    (Max31865_ReadRegister ⟨0, 0, 0, 0, 0⟩
      ⟨[], [⟨0, 0, 0⟩, ⟨0, 0, 0x12⟩, ⟨0, 0, 0x34⟩]⟩).2.1.Max31865_resistance_raw =
    (Max31865_ReadRegister ⟨0, 0, 0, 0, 0⟩
      ⟨[], [⟨0, 0, 0⟩, ⟨0, 0, 0x12⟩, ⟨0, 0, 0x35⟩]⟩).2.1.Max31865_resistance_raw :=
  have h := readRegister_rawCode ⟨0, 0, 0, 0, 0⟩ [] ⟨0, 0, 0⟩ 0 0 0 0 0x12 0x35 []
    (by decide) (by decide) (by decide) (by decide) (by decide) (by decide)
  ⟨h.2.1, h.2.2.2.1 0x34 (by decide) (by decide)⟩

/-! ## Results that fit are exact under both readings -/

theorem wrap_of_fits (ty : CInt) (x : Int) (h : ty.fits x) : ty.wrap x = x := by
  unfold CInt.fits at h
  unfold CInt.wrap
  cases ty <;> simp only [CInt.half] at h ⊢ <;> omega

theorem arith_of_fits (sem : IntSem) (ty : CInt) (x : Int) (h : ty.fits x) :
    arith sem ty x = .ok x := by
  cases sem
  · show Except.ok (ty.wrap x) = _
    rw [wrap_of_fits ty x h]
  · show (if ty.fits x then Except.ok x else _) = _
    rw [if_pos h]

theorem cast_of_fits (sem : IntSem) (ty : CInt) (x : Int) (h : ty.fits x) :
    cast sem ty x = .ok x := by
  cases sem
  · show Except.ok (ty.wrap x) = _
    rw [wrap_of_fits ty x h]
  · show (if ty.fits x then Except.ok x else _) = _
    rw [if_pos h]

theorem cdiv_of_fits (sem : IntSem) (ty : CInt) (a b : Int) (hb : b ≠ 0)
    (h : ty.fits (Int.tdiv a b)) : cdiv sem ty a b = .ok (Int.tdiv a b) := by
  unfold cdiv
  rw [if_neg hb]
  exact arith_of_fits sem ty _ h

theorem fits_i32 (x : Int) (h1 : -2147483648 ≤ x) (h2 : x < 2147483648) : CInt.fits .i32 x :=
  ⟨h1, h2⟩

theorem fits_i64 (x : Int) (h1 : -9223372036854775808 ≤ x) (h2 : x < 9223372036854775808) :
    CInt.fits .i64 x :=
  ⟨h1, h2⟩

theorem fits_i16 (x : Int) (h1 : -32768 ≤ x) (h2 : x < 32768) : CInt.fits .i16 x :=
  ⟨h1, h2⟩

/-- Truncating division of a non-negative value by a positive one is floor division. -/
theorem tdiv_of_nonneg (a b : Int) (ha : 0 ≤ a) (hb : 0 < b) : Int.tdiv a b = a / b :=
  Int.tdiv_eq_ediv ha (le_of_lt hb)

/-- Truncating division of a non-positive value rounds toward zero. -/
theorem tdiv_of_nonpos (a b : Int) (ha : a ≤ 0) (hb : 0 < b) : Int.tdiv a b = -((-a) / b) := by
  have h := Int.neg_tdiv (-a) b
  rw [neg_neg] at h
  rw [h, Int.tdiv_eq_ediv (by omega) (le_of_lt hb)]

theorem scaleRaw_exact (sem : IntSem) (raw : Nat) (h : raw ≤ 32767) :
    scaleRaw sem raw = .ok (((raw : Int) * 426 * 100) / 32768) := by
  unfold scaleRaw
  rw [cast_of_fits sem .i32 _ (fits_i32 _ (by omega) (by omega))]
  show (arith sem .i32 ((raw : Int) * 426) >>= _) = _
  rw [arith_of_fits sem .i32 _ (fits_i32 _ (by omega) (by omega))]
  show (arith sem .i32 ((raw : Int) * 426 * 100) >>= _) = _
  rw [arith_of_fits sem .i32 _ (fits_i32 _ (by omega) (by omega))]
  show cdiv sem .i32 ((raw : Int) * 426 * 100) 32768 = _
  have hd : Int.tdiv ((raw : Int) * 426 * 100) 32768 = ((raw : Int) * 426 * 100) / 32768 :=
    tdiv_of_nonneg _ _ (by omega) (by omega)
  rw [cdiv_of_fits sem .i32 _ _ (by decide) (by rw [hd]; exact fits_i32 _ (by omega) (by omega)), hd]

/-! ## Branch selection and scaling -/

theorem usesPositiveBranch_iff (R : Int) : usesPositiveBranch R = true ↔ 10000 ≤ R := by
  unfold usesPositiveBranch
  simp

theorem branchEstimate_pos (sem : IntSem) (R : Int) (h : 10000 ≤ R) :
    branchEstimate sem R = posBranch sem R := by
  unfold branchEstimate
  rw [if_pos ((usesPositiveBranch_iff R).mpr h)]

theorem branchEstimate_neg (sem : IntSem) (R : Int) (h : R < 10000) :
    branchEstimate sem R = negBranch sem R := by
  unfold branchEstimate
  have hn : ¬ usesPositiveBranch R = true := by
    rw [usesPositiveBranch_iff]; omega
  rw [if_neg hn]

/-- C11: the engine takes the positive branch exactly when ScaledResistance is
at least 10000 and the negative branch otherwise, so branch selection is
monotonic: if R1 <= R2 and R1 selects the positive branch, so does R2. -/
theorem branch_selection_monotonic :
    (∀ R, usesPositiveBranch R = true ↔ 10000 ≤ R) ∧
    (∀ sem R, 10000 ≤ R → branchEstimate sem R = posBranch sem R) ∧
    (∀ sem R, R < 10000 → branchEstimate sem R = negBranch sem R) ∧
    (∀ R1 R2, R1 ≤ R2 → usesPositiveBranch R1 = true → usesPositiveBranch R2 = true) := by
  refine ⟨usesPositiveBranch_iff, branchEstimate_pos, branchEstimate_neg, ?_⟩
  intro R1 R2 h h1
  rw [usesPositiveBranch_iff] at h1 ⊢
  omega

/-- Witness for C11: 10000 selects the positive branch, hence so does 13850;
9999 selects the negative branch. -/
theorem branch_selection_monotonic_witness :
    usesPositiveBranch 13850 = true ∧
    branchEstimate .strict 13850 = posBranch .strict 13850 ∧
    branchEstimate .strict 9999 = negBranch .strict 9999 :=
  ⟨branch_selection_monotonic.2.2.2 10000 13850 (by decide) (by decide),
   branch_selection_monotonic.2.1 .strict 13850 (by decide),
   branch_selection_monotonic.2.2.1 .strict 9999 (by decide)⟩

/-- C16: for every RawCode raw in 0..32767 the scaling gives
ScaledResistance = trunc(raw * 426 * 100 / 32768) under both readings of
the arithmetic, the products raw * 426 and raw * 426 * 100 are within the
signed 32-bit range, and 0 <= ScaledResistance <= 42598; this is the value
that `Max31865_ConvertToTemperature` stores in `Max31865_resistance_x100`. -/
theorem scaling_exact_and_bounded (sem : IntSem) (g : Globals)
    (h : g.Max31865_resistance_raw ≤ 32767) :
    scaleRaw sem g.Max31865_resistance_raw =
      .ok (Int.tdiv ((g.Max31865_resistance_raw : Int) * 426 * 100) 32768) ∧
    CInt.fits .i32 ((g.Max31865_resistance_raw : Int) * 426) ∧
    CInt.fits .i32 ((g.Max31865_resistance_raw : Int) * 426 * 100) ∧
    0 ≤ Int.tdiv ((g.Max31865_resistance_raw : Int) * 426 * 100) 32768 ∧
    Int.tdiv ((g.Max31865_resistance_raw : Int) * 426 * 100) 32768 ≤ 42598 ∧
    (∀ g1, Max31865_ConvertToTemperature sem g = .ok g1 →
      g1.Max31865_resistance_x100 =
        Int.tdiv ((g.Max31865_resistance_raw : Int) * 426 * 100) 32768) := by
  have hd : Int.tdiv ((g.Max31865_resistance_raw : Int) * 426 * 100) 32768 =
      ((g.Max31865_resistance_raw : Int) * 426 * 100) / 32768 :=
    tdiv_of_nonneg _ _ (by omega) (by omega)
  have hs := scaleRaw_exact sem g.Max31865_resistance_raw h
  rw [hd]
  refine ⟨hs, fits_i32 _ (by omega) (by omega), fits_i32 _ (by omega) (by omega),
    by omega, by omega, ?_⟩
  intro g1 hg
  unfold Max31865_ConvertToTemperature at hg
  rw [hs] at hg
  change (convertScaled sem _ >>= _) = _ at hg
  cases hT : convertScaled sem (((g.Max31865_resistance_raw : Int) * 426 * 100) / 32768) with
  | error e => rw [hT] at hg; cases hg
  | ok T => rw [hT] at hg; cases hg; rfl

/-- Witness for C16 at the largest RawCode 32767, which scales to 42598. -/
theorem scaling_exact_and_bounded_witness :
    scaleRaw .strict 32767 = .ok (Int.tdiv ((32767 : Int) * 426 * 100) 32768) ∧
    Int.tdiv ((32767 : Int) * 426 * 100) 32768 = 42598 :=
  ⟨(scaling_exact_and_bounded .strict ⟨32767, 0, 0, 0, 0⟩ (by decide)).1, by decide⟩

/-! ## The positive branch: derivative 3, four updates -/

theorem clampPos_bounds (t : Int) : 0 ≤ clampPos t ∧ clampPos t ≤ 8500 := by
  unfold clampPos
  dsimp only
  split_ifs <;> omega

theorem ok_bind {α β : Type} (a : α) (f : α → Except Fault β) :
    (Except.ok a >>= f) = f a := rfl

theorem posDRdt_eq_three (sem : IntSem) (t : Int) (h0 : 0 ≤ t) (h1 : t ≤ 8500) :
    Int.tdiv (R0_X100 * 2 * B_S * t) (100 * 1000000000) = 0 ∧ posDRdt sem t = .ok 3 := by
  have hq : Int.tdiv (R0_X100 * 2 * B_S * t) (100 * 1000000000) = 0 := by
    rw [tdiv_of_nonpos _ _ (by simp only [R0_X100, B_S]; omega) (by decide)]
    simp only [R0_X100, B_S]
    omega
  refine ⟨hq, ?_⟩
  unfold posDRdt
  rw [cdiv_of_fits sem .i64 _ _ (by decide) (by decide), ok_bind,
    arith_of_fits sem .i64 _ (fits_i64 _ (by simp only [R0_X100, B_S]; omega)
      (by simp only [R0_X100, B_S]; omega)), ok_bind,
    cdiv_of_fits sem .i64 _ _ (by decide) (by rw [hq]; decide), ok_bind, hq]
  exact arith_of_fits sem .i64 3 (by decide)

theorem posRcalc_exact (sem : IntSem) (t : Int) (h0 : 0 ≤ t) (h1 : t ≤ 8500) :
    posRcalc sem t = .ok (posRcalcExact t) ∧
    5000 ≤ posRcalcExact t ∧ posRcalcExact t ≤ 44000 := by
  have htt0 : 0 ≤ t * t := mul_nonneg h0 h0
  have htt1 : t * t ≤ 8500 * 8500 := mul_le_mul h1 h1 h0 (by omega)
  have hA : Int.tdiv (R0_X100 * A_S * t) (10 * 1000000000) =
      (39083000000 * t) / 10000000000 := by
    rw [tdiv_of_nonneg _ _ (by simp only [R0_X100, A_S]; omega) (by decide)]
    simp only [R0_X100, A_S]
    congr 1
  have hB : Int.tdiv (R0_X100 * B_S * (t * t)) (100 * 1000000000) =
      -((5770000 * (t * t)) / 100000000000) := by
    rw [tdiv_of_nonpos _ _ (by simp only [R0_X100, B_S]; omega) (by decide)]
    simp only [R0_X100, B_S]
    congr 2
    omega
  unfold posRcalc posRcalcExact
  generalize t * t = tt at htt0 htt1 hB ⊢
  rw [hA, hB]
  refine ⟨?_, by simp only [R0_X100]; omega, by simp only [R0_X100]; omega⟩
  rw [arith_of_fits sem .i64 _ (fits_i64 _ (by simp only [R0_X100, A_S]; omega)
      (by simp only [R0_X100, A_S]; omega)), ok_bind,
    cdiv_of_fits sem .i64 _ _ (by decide)
      (by rw [hA]; exact fits_i64 _ (by omega) (by omega)), ok_bind, hA,
    arith_of_fits sem .i64 tt (fits_i64 _ (by omega) (by omega)), ok_bind,
    arith_of_fits sem .i64 _ (fits_i64 _ (by simp only [R0_X100, B_S]; omega)
      (by simp only [R0_X100, B_S]; omega)), ok_bind,
    cdiv_of_fits sem .i64 _ _ (by decide)
      (by rw [hB]; exact fits_i64 _ (by omega) (by omega)), ok_bind, hB,
    arith_of_fits sem .i64 _ (fits_i64 _ (by simp only [R0_X100]; omega)
      (by simp only [R0_X100]; omega)), ok_bind]
  exact arith_of_fits sem .i64 _ (fits_i64 _ (by simp only [R0_X100]; omega)
    (by simp only [R0_X100]; omega))

theorem posLoop_step (sem : IntSem) (R t : Int) (n : Nat)
    (hR0 : -2147483648 ≤ R) (hR1 : R < 2147483648) (h0 : 0 ≤ t) (h1 : t ≤ 8500) :
    posLoop sem R (n + 1) t = posLoop sem R n (posUpdate3 R t) := by
  obtain ⟨hrc, hlo, hhi⟩ := posRcalc_exact sem t h0 h1
  have hd := (posDRdt_eq_three sem t h0 h1).2
  have hq1 : -715842549 ≤ Int.tdiv (posRcalcExact t - R) 3 ∧
      Int.tdiv (posRcalcExact t - R) 3 ≤ 715842549 := by
    rcases le_total 0 (posRcalcExact t - R) with h | h
    · rw [tdiv_of_nonneg _ _ h (by decide)]; omega
    · rw [tdiv_of_nonpos _ _ h (by decide)]; omega
  rw [posLoop, hrc, ok_bind,
    arith_of_fits sem .i64 _ (fits_i64 _ (by omega) (by omega)), ok_bind, hd, ok_bind]
  rw [if_neg (by decide),
    cdiv_of_fits sem .i64 _ _ (by decide) (fits_i64 _ (by omega) (by omega)), ok_bind,
    cast_of_fits sem .i32 _ (fits_i32 _ (by omega) (by omega)), ok_bind,
    arith_of_fits sem .i32 _ (fits_i32 _ (by omega) (by omega)), ok_bind]
  rfl

theorem posUpdate3_bounds (R t : Int) : 0 ≤ posUpdate3 R t ∧ posUpdate3 R t ≤ 8500 :=
  clampPos_bounds _

theorem posLoop_four (sem : IntSem) (R t : Int)
    (hR0 : -2147483648 ≤ R) (hR1 : R < 2147483648) (h0 : 0 ≤ t) (h1 : t ≤ 8500) :
    posLoop sem R 4 t =
      .ok (posUpdate3 R (posUpdate3 R (posUpdate3 R (posUpdate3 R t)))) := by
  have b1 := posUpdate3_bounds R t
  have b2 := posUpdate3_bounds R (posUpdate3 R t)
  have b3 := posUpdate3_bounds R (posUpdate3 R (posUpdate3 R t))
  rw [posLoop_step sem R t 3 hR0 hR1 h0 h1,
    posLoop_step sem R _ 2 hR0 hR1 b1.1 b1.2,
    posLoop_step sem R _ 1 hR0 hR1 b2.1 b2.2,
    posLoop_step sem R _ 0 hR0 hR1 b3.1 b3.2]
  rfl

theorem posInitial_exact (sem : IntSem) (R : Int) (h0 : 10000 ≤ R) (h1 : R ≤ 100000000) :
    posInitial sem R = .ok (Int.tdiv ((R - R0_X100) * 10 * 1000000000) (R0_X100 * A_S)) := by
  have hq : Int.tdiv ((R - R0_X100) * 10 * 1000000000) (R0_X100 * A_S) =
      ((R - 10000) * 10 * 1000000000) / 39083000000 := by
    rw [tdiv_of_nonneg _ _ (by simp only [R0_X100]; omega) (by decide)]
    rfl
  unfold posInitial
  rw [arith_of_fits sem .i64 _ (fits_i64 _ (by simp only [R0_X100]; omega)
      (by simp only [R0_X100]; omega)), ok_bind,
    arith_of_fits sem .i64 _ (fits_i64 _ (by simp only [R0_X100]; omega)
      (by simp only [R0_X100]; omega)), ok_bind,
    arith_of_fits sem .i64 _ (fits_i64 _ (by simp only [R0_X100]; omega)
      (by simp only [R0_X100]; omega)), ok_bind,
    cdiv_of_fits sem .i64 _ _ (by decide)
      (by rw [hq]; exact fits_i64 _ (by omega) (by omega)), ok_bind]
  exact cast_of_fits sem .i32 _ (by rw [hq]; exact fits_i32 _ (by omega) (by omega))

theorem posBranch_exact (sem : IntSem) (R : Int) (h0 : 10000 ≤ R) (h1 : R ≤ 100000000) :
    posBranch sem R = .ok (posUpdate3 R (posUpdate3 R (posUpdate3 R
      (posUpdate3 R (posInitialExact R))))) := by
  unfold posBranch
  rw [posInitial_exact sem R h0 h1, ok_bind]
  exact posLoop_four sem R _ (by omega) (by omega) (clampPos_bounds _).1 (clampPos_bounds _).2

theorem convertScaled_pos_exact (sem : IntSem) (R : Int) (h0 : 10000 ≤ R)
    (h1 : R ≤ 100000000) :
    convertScaled sem R = .ok (posUpdate3 R (posUpdate3 R (posUpdate3 R
      (posUpdate3 R (posInitialExact R))))) := by
  have hb := posUpdate3_bounds R (posUpdate3 R (posUpdate3 R (posUpdate3 R (posInitialExact R))))
  unfold convertScaled
  rw [branchEstimate_pos sem R h0, posBranch_exact sem R h0 h1, ok_bind,
    cast_of_fits sem .i16 _ (fits_i16 _ (by omega) (by omega)), ok_bind]
  show Except.ok (clampFinal _) = _
  congr 1
  unfold clampFinal
  dsimp only
  split_ifs <;> omega

/-! ## Round trip over the positive range -/

theorem allBelow_spec (p : Nat → Bool) (n : Nat) (h : allBelow p n = true) :
    ∀ k, k < n → p k = true := by
  induction n with
  | zero => intro k hk; omega
  | succ n ih =>
      intro k hk
      unfold allBelow at h
      rw [Bool.and_eq_true] at h
      rcases Nat.lt_succ_iff_lt_or_eq.mp hk with h1 | h1
      · exact ih h.2 k h1
      · rw [h1]; exact h.1

theorem allFrom_spec (p : Nat → Bool) (lo n : Nat) (h : allFrom p lo n = true) :
    ∀ k, lo ≤ k → k < lo + n → p k = true := by
  intro k h1 h2
  have h3 := allBelow_spec (fun j => p (lo + j)) n h (k - lo) (by omega)
  have h4 : lo + (k - lo) = k := by omega
  simp only [h4] at h3
  exact h3

theorem cvdQuadraticX100_eq (T10 : Int) : cvdQuadraticX100 T10 = cvdQuadraticX100Int T10 := by
  unfold cvdQuadraticX100 cvdQuadraticX100Int
  dsimp only
  rw [round_eq]
  have h : (10000 * (1 + 39083 / 10000000 * ((T10 : ℚ) / 10) +
      -5775 / 10000000000 * ((T10 : ℚ) / 10) ^ 2) + 1 / 2 : ℚ) =
      ((2 * (1000000000000 + 390830000 * T10 - 5775 * (T10 * T10)) + 100000000 : Int) : ℚ) /
        ((200000000 : Nat) : ℚ) := by
    push_cast
    ring
  rw [h, Rat.floor_intCast_div_natCast]
  rfl

theorem refNat_eq (T : Nat) (h : T ≤ 8500) : cvdQuadraticX100Int (T : Int) = (refNat T : Int) := by
  unfold cvdQuadraticX100Int refNat
  have htt : T * T ≤ 8500 * 8500 := Nat.mul_le_mul h h
  have hc : (T : Int) * (T : Int) = ((T * T : Nat) : Int) := by push_cast; rfl
  rw [hc]
  generalize T * T = tt at htt
  omega

theorem initNat_eq (R : Nat) (h0 : 10000 ≤ R) (h1 : R ≤ 100000000) :
    posInitialExact (R : Int) = (initNat R : Int) ∧ initNat R ≤ 8500 := by
  unfold posInitialExact initNat clampPos
  rw [tdiv_of_nonneg _ _ (by simp only [R0_X100]; omega) (by decide)]
  simp only [R0_X100, A_S]
  refine ⟨?_, by omega⟩
  split_ifs <;> omega

theorem stepNat_eq (R t : Nat) (h1 : R ≤ 100000000) (ht : t ≤ 8500) :
    posUpdate3 (R : Int) (t : Int) = (stepNat R t : Int) ∧ stepNat R t ≤ 8500 := by
  have htt : t * t ≤ 8500 * 8500 := Nat.mul_le_mul ht ht
  have hc : (t : Int) * (t : Int) = ((t * t : Nat) : Int) := by push_cast; rfl
  have hA : Int.tdiv (R0_X100 * A_S * (t : Int)) (10 * 1000000000) =
      (39083000000 * (t : Int)) / 10000000000 := by
    rw [tdiv_of_nonneg _ _ (by simp only [R0_X100, A_S]; omega) (by decide)]
    simp only [R0_X100, A_S]
    congr 1
  have hB : Int.tdiv (R0_X100 * B_S * ((t : Int) * (t : Int))) (100 * 1000000000) =
      -((5770000 * ((t * t : Nat) : Int)) / 100000000000) := by
    rw [hc, tdiv_of_nonpos _ _ (by simp only [R0_X100, B_S]; omega) (by decide)]
    simp only [R0_X100, B_S]
    congr 2
    omega
  unfold posUpdate3 posRcalcExact stepNat clampPos
  rw [hA, hB]
  simp only [R0_X100]
  generalize t * t = tt at htt
  rcases le_total 0 (10000 + 39083000000 * (t : Int) / 10000000000 +
      -(5770000 * (tt : Int) / 100000000000) - (R : Int)) with hf | hf
  · rw [tdiv_of_nonneg _ _ hf (by decide)]
    refine ⟨?_, ?_⟩ <;> split_ifs <;> omega
  · rw [tdiv_of_nonpos _ _ hf (by decide)]
    refine ⟨?_, ?_⟩ <;> split_ifs <;> omega

theorem posRoundTrip_window_0 : allFrom posRoundTripOk 0 2000 = true := by
  decide!

theorem posRoundTrip_window_1 : allFrom posRoundTripOk 2000 2000 = true := by
  decide!

theorem posRoundTrip_window_2 : allFrom posRoundTripOk 4000 2000 = true := by
  decide!

theorem posRoundTrip_window_3 : allFrom posRoundTripOk 6000 2000 = true := by
  decide!

theorem posRoundTrip_window_4 : allFrom posRoundTripOk 8000 501 = true := by
  decide!

theorem posRoundTrip_all (k : Nat) (hk : k < 8501) : posRoundTripOk k = true := by
  by_cases h0 : k < 2000
  · exact allFrom_spec _ _ _ posRoundTrip_window_0 k (by omega) (by omega)
  by_cases h1 : k < 4000
  · exact allFrom_spec _ _ _ posRoundTrip_window_1 k (by omega) (by omega)
  by_cases h2 : k < 6000
  · exact allFrom_spec _ _ _ posRoundTrip_window_2 k (by omega) (by omega)
  by_cases h3 : k < 8000
  · exact allFrom_spec _ _ _ posRoundTrip_window_3 k (by omega) (by omega)
  exact allFrom_spec _ _ _ posRoundTrip_window_4 k (by omega) (by omega)

theorem abs_natCast_sub_le (t k : Nat) (h1 : t ≤ k + 2) (h2 : k ≤ t + 2) :
    |(t : Int) - (k : Int)| ≤ 2 := by
  rw [abs_le]
  omega

theorem posEngineExact_roundtrip (k : Nat) (hk : k ≤ 8500) :
    10000 ≤ cvdQuadraticX100Int (k : Int) ∧ cvdQuadraticX100Int (k : Int) ≤ 100000000 ∧
    |posEngineExact (cvdQuadraticX100Int (k : Int)) - (k : Int)| ≤ 2 := by
  have h := posRoundTrip_all k (by omega)
  unfold posRoundTripOk at h
  simp only [Bool.and_eq_true, decide_eq_true_eq] at h
  obtain ⟨⟨⟨hlo, hhi⟩, h1⟩, h2⟩ := h
  obtain ⟨e0, b0⟩ := initNat_eq (refNat k) hlo hhi
  obtain ⟨e1, b1⟩ := stepNat_eq (refNat k) _ hhi b0
  obtain ⟨e2, b2⟩ := stepNat_eq (refNat k) _ hhi b1
  obtain ⟨e3, b3⟩ := stepNat_eq (refNat k) _ hhi b2
  obtain ⟨e4, -⟩ := stepNat_eq (refNat k) _ hhi b3
  rw [refNat_eq k hk]
  unfold posEngineExact
  rw [e0, e1, e2, e3, e4]
  exact ⟨by exact_mod_cast hlo, by exact_mod_cast hhi, abs_natCast_sub_le _ _ h1 h2⟩

/-- C12: for every temperature T (tenths of a degree) with 0 <= T <= 8500, the
engine applied to the rounded quadratic reference resistance of T returns a
Temperature within 2 tenths of T, under both readings of the arithmetic. -/
theorem roundtrip_positive_range (sem : IntSem) (T : Int) (h0 : 0 ≤ T) (h1 : T ≤ 8500) :
    ∃ T1, convertScaled sem (cvdQuadraticX100 T) = .ok T1 ∧ |T1 - T| ≤ 2 := by
  obtain ⟨k, rfl⟩ := Int.eq_ofNat_of_zero_le h0
  obtain ⟨hlo, hhi, hT⟩ := posEngineExact_roundtrip k (by omega)
  rw [cvdQuadraticX100_eq]
  exact ⟨_, convertScaled_pos_exact sem _ hlo hhi, hT⟩

/-- Witness for C12 at T = 1000 (100.0 degrees). -/
theorem roundtrip_positive_range_witness :
    ∃ T1, convertScaled .strict (cvdQuadraticX100 1000) = .ok T1 ∧ |T1 - 1000| ≤ 2 :=
  roundtrip_positive_range .strict 1000 (by decide) (by decide)

/-- C15: for every ScaledResistance R with 10000 <= R <= 42598 the engine
takes the positive branch and returns a Temperature in [0, 8500], under both
readings of the arithmetic. -/
theorem positive_branch_never_negative (sem : IntSem) (R : Int) (h0 : 10000 ≤ R)
    (h1 : R ≤ 42598) :
    usesPositiveBranch R = true ∧
    ∃ T, convertScaled sem R = .ok T ∧ 0 ≤ T ∧ T ≤ 8500 :=
  ⟨(usesPositiveBranch_iff R).mpr h0, _, convertScaled_pos_exact sem R h0 (by omega),
    (posUpdate3_bounds R _).1, (posUpdate3_bounds R _).2⟩

/-- Witness for C15 at the largest ScaledResistance 42598. -/
theorem positive_branch_never_negative_witness :
    usesPositiveBranch 42598 = true ∧
    ∃ T, convertScaled .strict 42598 = .ok T ∧ 0 ≤ T ∧ T ≤ 8500 :=
  positive_branch_never_negative .strict 42598 (by decide) (by decide)

/-- C18: in the positive branch, for every estimate t in [0, 8500] the
quadratic contribution to the derivative truncates to 0 and `dRdt` is exactly
3; for every ScaledResistance R >= 10000 (a 32-bit value) the early exit is
not taken, each iteration replaces t by clamp(t - trunc(f / 3), 0, 8500) with
f = Rcalc - R, and exactly 4 such updates run. -/
theorem positive_derivative_is_three (sem : IntSem) (R t : Int) (hR : 10000 ≤ R)
    (hR1 : R < 2147483648) (h0 : 0 ≤ t) (h1 : t ≤ 8500) :
    Int.tdiv (R0_X100 * 2 * B_S * t) (100 * 1000000000) = 0 ∧
    posDRdt sem t = .ok 3 ∧
    posRcalc sem t = .ok (posRcalcExact t) ∧
    (∀ n, posLoop sem R (n + 1) t =
      posLoop sem R n (clampPos (t - Int.tdiv (posRcalcExact t - R) 3))) ∧
    posLoop sem R 4 t = .ok (posUpdate3 R (posUpdate3 R (posUpdate3 R (posUpdate3 R t)))) :=
  ⟨(posDRdt_eq_three sem t h0 h1).1, (posDRdt_eq_three sem t h0 h1).2,
   (posRcalc_exact sem t h0 h1).1,
   fun n => posLoop_step sem R t n (by omega) hR1 h0 h1,
   posLoop_four sem R t (by omega) hR1 h0 h1⟩

/-- Witness for C18 at ScaledResistance 13850 and estimate 985. -/
theorem positive_derivative_is_three_witness :
    posDRdt .strict 985 = .ok 3 ∧
    posLoop .strict 13850 4 985 =
      .ok (posUpdate3 13850 (posUpdate3 13850 (posUpdate3 13850 (posUpdate3 13850 985)))) :=
  have h := positive_derivative_is_three .strict 13850 985 (by decide) (by decide)
    (by decide) (by decide)
  ⟨h.2.1, h.2.2.2.2⟩

/-! ## The flat part of the negative branch -/

theorem negFlat_window_0 : allFrom negFlatOk 0 105 = true := by
  decide!

theorem negFlat_window_1 : allFrom negFlatOk 105 105 = true := by
  decide!

theorem negFlat_window_2 : allFrom negFlatOk 210 105 = true := by
  decide!

theorem negFlat_window_3 : allFrom negFlatOk 315 105 = true := by
  decide!

theorem negFlat_window_4 : allFrom negFlatOk 420 105 = true := by
  decide!

theorem negFlat_all (k : Nat) (hk : k < 525) : negFlatOk k = true := by
  by_cases h0 : k < 105
  · exact allFrom_spec _ _ _ negFlat_window_0 k (by omega) (by omega)
  by_cases h1 : k < 210
  · exact allFrom_spec _ _ _ negFlat_window_1 k (by omega) (by omega)
  by_cases h2 : k < 315
  · exact allFrom_spec _ _ _ negFlat_window_2 k (by omega) (by omega)
  by_cases h3 : k < 420
  · exact allFrom_spec _ _ _ negFlat_window_3 k (by omega) (by omega)
  exact allFrom_spec _ _ _ negFlat_window_4 k (by omega) (by omega)

theorem negFlat_facts (sem : IntSem) (t : Int) (h0 : -524 ≤ t) (h1 : t ≤ 0) :
    negFp sem t = .ok 0 ∧ ∃ rc, negRcalc sem t = .ok rc ∧ 0 ≤ rc ∧ rc ≤ 1000 := by
  obtain ⟨k, hk⟩ := Int.eq_ofNat_of_zero_le (show 0 ≤ -t by omega)
  have ht : t = -(k : Int) := by omega
  subst ht
  have h := negFlat_all k (by omega)
  unfold negFlatOk at h
  cases hrc : negRcalc .strict (-(k : Int)) with
  | error e => rw [hrc] at h; simp at h
  | ok rc =>
      rw [hrc] at h
      simp only [Bool.and_eq_true, decide_eq_true_eq] at h
      obtain ⟨⟨hw, hs⟩, ⟨hrw, hlo⟩, hhi⟩ := h
      cases sem
      · exact ⟨hw, rc, hrw, hlo, hhi⟩
      · exact ⟨hs, rc, hrc, hlo, hhi⟩

theorem negStep_flat (sem : IntSem) (R t : Int) (hR0 : -2147483648 ≤ R)
    (hR1 : R < 2147483648) (h0 : -524 ≤ t) (h1 : t ≤ 0) : negStep sem R t = .ok t := by
  obtain ⟨hfp, rc, hrc, hlo, hhi⟩ := negFlat_facts sem t h0 h1
  exact negStep_zero_derivative sem R t rc (rc - R) hrc
    (arith_of_fits sem .i64 _ (fits_i64 _ (by omega) (by omega))) hfp

theorem negLoop_flat (sem : IntSem) (R t : Int) (hR0 : -2147483648 ≤ R)
    (hR1 : R < 2147483648) (h0 : -524 ≤ t) (h1 : t ≤ 0) (n : Nat) :
    negLoop sem R n t = .ok t := by
  induction n with
  | zero => rfl
  | succ n ih =>
      rw [negLoop, negStep_flat sem R t hR0 hR1 h0 h1, ok_bind, ih]

theorem negInitial_exact (sem : IntSem) (R : Int) (h0 : 0 ≤ R) (h1 : R ≤ 9999) :
    negInitial sem R = .ok (Int.tdiv ((R - 10000) * 10000) MAX31865_A) ∧
    Int.tdiv ((R - 10000) * 10000) MAX31865_A = -(((10000 - R) * 10000) / 39083) := by
  have hq : Int.tdiv ((R - 10000) * 10000) MAX31865_A = -(((10000 - R) * 10000) / 39083) := by
    rw [tdiv_of_nonpos _ _ (by omega) (by decide)]
    congr 2
    omega
  refine ⟨?_, hq⟩
  unfold negInitial
  rw [arith_of_fits sem .i32 _ (fits_i32 _ (by omega) (by omega)), ok_bind,
    arith_of_fits sem .i32 _ (fits_i32 _ (by omega) (by omega)), ok_bind]
  exact cdiv_of_fits sem .i32 _ _ (by decide)
    (by rw [hq]; exact fits_i32 _ (by omega) (by omega))

/-- C19: for every ScaledResistance R with 7949 <= R <= 9999 the initial
estimate t0 = trunc((R - 10000) * 10000 / 39083) lies in [-524, 0], the
derivative `fp` evaluates to 0 at t0, every iteration leaves the estimate
unchanged, and the Temperature returned is exactly t0. -/
theorem negative_branch_flat_region (sem : IntSem) (R : Int) (h0 : 7949 ≤ R) (h1 : R ≤ 9999) :
    -524 ≤ Int.tdiv ((R - 10000) * 10000) MAX31865_A ∧
    Int.tdiv ((R - 10000) * 10000) MAX31865_A ≤ 0 ∧
    negInitial sem R = .ok (Int.tdiv ((R - 10000) * 10000) MAX31865_A) ∧
    negFp sem (Int.tdiv ((R - 10000) * 10000) MAX31865_A) = .ok 0 ∧
    negStep sem R (Int.tdiv ((R - 10000) * 10000) MAX31865_A) =
      .ok (Int.tdiv ((R - 10000) * 10000) MAX31865_A) ∧
    negBranch sem R = .ok (Int.tdiv ((R - 10000) * 10000) MAX31865_A) ∧
    convertScaled sem R = .ok (Int.tdiv ((R - 10000) * 10000) MAX31865_A) := by
  obtain ⟨hi, hq⟩ := negInitial_exact sem R (by omega) h1
  have hlo : -524 ≤ Int.tdiv ((R - 10000) * 10000) MAX31865_A := by rw [hq]; omega
  have hhi : Int.tdiv ((R - 10000) * 10000) MAX31865_A ≤ 0 := by rw [hq]; omega
  have hb : negBranch sem R = .ok (Int.tdiv ((R - 10000) * 10000) MAX31865_A) := by
    unfold negBranch
    rw [hi, ok_bind]
    exact negLoop_flat sem R _ (by omega) (by omega) hlo hhi 3
  refine ⟨hlo, hhi, hi, (negFlat_facts sem _ hlo hhi).1,
    negStep_flat sem R _ (by omega) (by omega) hlo hhi, hb, ?_⟩
  unfold convertScaled
  rw [branchEstimate_neg sem R (by omega), hb, ok_bind,
    cast_of_fits sem .i16 _ (fits_i16 _ (by omega) (by omega)), ok_bind]
  show Except.ok (clampFinal _) = _
  congr 1
  unfold clampFinal
  dsimp only
  split_ifs <;> omega

/-- Witness for C19 at ScaledResistance 8031 (the reference value of -50.0
degrees): the Temperature returned is the linear estimate -503. -/
theorem negative_branch_flat_region_witness :
    convertScaled .strict 8031 = .ok (Int.tdiv ((8031 - 10000) * 10000) MAX31865_A) ∧
    Int.tdiv ((8031 - 10000) * 10000) MAX31865_A = -503 :=
  ⟨(negative_branch_flat_region .strict 8031 (by decide) (by decide)).2.2.2.2.2.2, by decide⟩


/-! ## Claims that the code does not meet -/

/-- C13 (fails on the code): at t = 0 the negative branch evaluates r_calc to
1000 where the reference value in hundredths of an ohm is 10000, and at
t = -1000 it evaluates r_calc to 550 where the reference is 753198/125
(about 6025.58); both are further than 100 from the reference. -/
theorem negative_rcalc_off_reference (sem : IntSem) :
    negRcalc sem 0 = .ok 1000 ∧ cvdCubicX100 0 = 10000 ∧
    ¬ (|((1000 : Int) : ℚ) - cvdCubicX100 0| ≤ 100) ∧
    negRcalc sem (-1000) = .ok 550 ∧ cvdCubicX100 (-1000) = 753198 / 125 ∧
    ¬ (|((550 : Int) : ℚ) - cvdCubicX100 (-1000)| ≤ 100) := by
  have h0 : cvdCubicX100 0 = 10000 := by
    unfold cvdCubicX100; norm_num
  have h1 : cvdCubicX100 (-1000) = 753198 / 125 := by
    unfold cvdCubicX100; norm_num
  refine ⟨by cases sem <;> decide, h0, ?_, by cases sem <;> decide, h1, ?_⟩
  · rw [h0]; norm_num [abs_le]
  · rw [h1]; norm_num [abs_le]

/-- C14 (fails on the code): at RawCode 3771 (ScaledResistance 4902) the
negative branch leaves the 32-bit estimate 32863 on the wrap-around machine;
the cast to `int16_t` turns it into -32673 and the final clamp leaves
Temperature -2000, while saturating 32863 into [-2000, 8500] gives 8500. -/
theorem narrowing_before_clamp_at_rawcode_3771 :
    scaleRaw .wraps 3771 = .ok 4902 ∧ branchEstimate .wraps 4902 = .ok 32863 ∧
    cast .wraps .i16 32863 = .ok (-32673) ∧ convertScaled .wraps 4902 = .ok (-2000) ∧
    Max31865_ConvertToTemperature .wraps ⟨3771, 0, 0, 0, 0⟩ = .ok ⟨3771, 4902, -2000, 0, 0⟩ ∧
    max (-2000 : Int) (min 8500 32863) = 8500 ∧
    Max31865_ConvertToTemperature .strict ⟨3771, 0, 0, 0, 0⟩ = .error .overflow := by
  refine ⟨by decide, by decide, by decide, by decide, by decide, by decide, by decide⟩

/-- C17 (fails on the code): RawCode 7677 leaves Temperature -5 (-0.5 degrees);
`Max31865_PrintTemp` then prints the integer part 0 without a minus sign and
the decimal digit 5, and the text `0.5` read as a signed decimal is +5 tenths,
not -5. -/
theorem print_loses_sign_above_minus_one (sem : IntSem) :
    Max31865_ConvertToTemperature sem ⟨7677, 0, 0, 0, 0⟩ = .ok ⟨7677, 9980, -5, 0, 0⟩ ∧
    Max31865_PrintTemp sem ⟨7677, 9980, -5, 0, 0⟩ = .ok (⟨false, 0⟩, ⟨false, 5⟩) ∧
    readTenths (⟨false, 0⟩, ⟨false, 5⟩) = 5 ∧ (5 : Int) ≠ -5 ∧
    Max31865_PrintTemp sem ⟨7677, 9980, -15, 0, 0⟩ = .ok (⟨true, 1⟩, ⟨false, 5⟩) ∧
    readTenths (⟨true, 1⟩, ⟨false, 5⟩) = -15 := by
  cases sem <;> exact ⟨by decide, by decide, by decide, by decide, by decide, by decide⟩

end PT100
